import Mathlib

/-!
Verification development for the discord-compliance-bot repository.

Python strings are embedded as `List Char`; timestamps as `Int`
(microseconds); real-valued scores as `ℚ` (the code's arithmetic on
confidence scores and rank-fusion weights is modelled exactly);
database tables as Lean lists of record rows.  Each definition mirrors
one Python function or handler of the source, named after it.
-/

namespace CBot

/-! ### Python string primitives (shared by the splitter and the LLM service) -/

/-- Characters stripped by Python's `str.strip()` (ASCII whitespace). -/
def isPySpace (c : Char) : Bool :=
  c = ' ' || c = '\t' || c = '\n' || c = '\r' || c = '\x0b' || c = '\x0c'

/-- Python `s.strip()`: drop leading and trailing whitespace. -/
def pyStrip (l : List Char) : List Char :=
  ((l.dropWhile isPySpace).reverse.dropWhile isPySpace).reverse

/-- Python `s.find(pat)` restricted to found-or-not: index of the first
occurrence of `pat` in `l`, if any. -/
def findSub (pat : List Char) : List Char → Option Nat
  | [] => if pat = [] then some 0 else none
  | c :: rest =>
    if pat.isPrefixOf (c :: rest) then some 0
    else (findSub pat rest).map (· + 1)

theorem findSub_nil {pat : List Char} (h : pat ≠ []) : findSub pat [] = none := by
  simp [findSub, h]

theorem findSub_isPrefixOf {pat l : List Char} {i : Nat} :
    findSub pat l = some i → pat.isPrefixOf (l.drop i) := by
  induction l generalizing i with
  | nil =>
    intro h
    by_cases hp : pat = []
    · subst hp; simp [List.isPrefixOf]
    · simp [findSub, hp] at h
  | cons c rest ih =>
    intro h
    rw [findSub] at h
    by_cases hp : pat.isPrefixOf (c :: rest)
    · simp [hp] at h
      subst h
      simpa using hp
    · simp [hp] at h
      obtain ⟨j, hj, rfl⟩ := h
      simpa using ih hj

theorem findSub_some_add_le {pat l : List Char} {i : Nat} (hpat : pat ≠ [])
    (h : findSub pat l = some i) : i + pat.length ≤ l.length := by
  have hpre := findSub_isPrefixOf h
  have hlen : pat.length ≤ (l.drop i).length := (List.isPrefixOf_iff_prefix.mp hpre).length_le
  have hi : i ≤ l.length := by
    by_contra hcon
    push_neg at hcon
    have : l.drop i = [] := List.drop_eq_nil_of_le (le_of_lt hcon)
    rw [this] at hlen
    simp at hlen
    exact hpat hlen
  have := List.length_drop i l ▸ hlen
  omega

/-- Fuelled worker for `pySplit`.  Each recursive call consumes at least
one character of `text` (the occurrence index plus the nonempty
separator), so `text.length` fuel is always enough; at fuel 0 the text
is empty and the base case coincides with the `none` branch. -/
def pySplitAux (sep : List Char) : Nat → List Char → List (List Char)
  | 0, text => [text]
  | fuel + 1, text =>
    match findSub sep text with
    | none => [text]
    | some i => text.take i :: pySplitAux sep fuel (text.drop (i + sep.length))

/-- Python `text.split(sep)` for nonempty `sep` (splits at every
occurrence, keeping empty pieces). -/
def pySplit (sep text : List Char) : List (List Char) :=
  if sep = [] then [text] else pySplitAux sep text.length text

theorem pySplitAux_of_none {sep text : List Char} {n : Nat}
    (h : findSub sep text = none) : pySplitAux sep (n + 1) text = [text] := by
  rw [pySplitAux, h]

theorem pySplitAux_of_some {sep text : List Char} {n i : Nat}
    (h : findSub sep text = some i) :
    pySplitAux sep (n + 1) text =
      text.take i :: pySplitAux sep n (text.drop (i + sep.length)) := by
  rw [pySplitAux, h]

theorem pySplit_of_none {sep text : List Char} (hsep : sep ≠ [])
    (h : findSub sep text = none) : pySplit sep text = [text] := by
  unfold pySplit
  rw [if_neg hsep]
  cases hl : text.length with
  | zero => rfl
  | succ n => rw [pySplitAux_of_none h]

/-! ### RecursiveTextSplitter (src/heroku-api/app/rag/splitter.py) -/

/-- The loop in `_split_by_separators` that re-appends the separator to
every piece except the last and drops empty pieces (`if split:` /
`if i < len(splits) - 1 and separator:`).  For the character-level pass
the separator is `[]`, which Python treats as falsy, and appending `[]`
is the identity, so the same definition covers both branches. -/
def reAdd (sep : List Char) : List (List Char) → List (List Char)
  | [] => []
  | [s] => if s = [] then [] else [s]
  | s :: s' :: rest =>
    if s = [] then reAdd sep (s' :: rest) else (s ++ sep) :: reAdd sep (s' :: rest)

/-- The splits produced by one separator in
`RecursiveTextSplitter._split_by_separators`: Python's
`text.split(separator)` for a truthy separator, `list(text)` for the
empty one. -/
def applySep (sep text : List Char) : List (List Char) :=
  if sep = [] then text.map (fun c => [c]) else pySplit sep text

/-- `RecursiveTextSplitter._split_by_separators`: try each separator in
order, accept the first that yields more than one piece. -/
def splitBySeparators (text : List Char) : List (List Char) → List (List Char)
  | [] => [text]
  | sep :: rest =>
    if 1 < (applySep sep text).length then reAdd sep (applySep sep text)
    else splitBySeparators text rest

/-- The default separator list of `RecursiveTextSplitter.__init__`:
paragraph break, line break, sentence end, space, characters. -/
def defaultSeparators : List (List Char) :=
  [['\n', '\n'], ['\n'], ['.', ' '], [' '], []]

/-- Trimming of the overlap tail back to the nearest word boundary in
`RecursiveTextSplitter._get_overlap` (`overlap.find(" ")`, dropped past
it only when the space is at a positive index). -/
def overlapTrim (overlap : List Char) : List Char :=
  match findSub [' '] overlap with
  | some i => if 0 < i then overlap.drop (i + 1) else overlap
  | none => overlap

/-- `RecursiveTextSplitter._get_overlap`.  `chunk_overlap` is in
"tokens" (4 characters each).  Python's `text[-overlap_chars:]` returns
the whole string when `overlap_chars = 0`, which the model reproduces. -/
def getOverlap (chunk_overlap : Nat) (text : List Char) : List Char :=
  if text.length ≤ chunk_overlap * 4 then text
  else overlapTrim
    (if chunk_overlap * 4 = 0 then text else text.drop (text.length - chunk_overlap * 4))

/-- One iteration of the `for sentence in sentences` loop in
`RecursiveTextSplitter.split_text`: extend the running chunk while the
token estimate (`len // 4`) fits, otherwise close it (stripped) and seed
the next chunk with the overlap tail. -/
def splitStep (chunk_size chunk_overlap : Nat) :
    List (List Char) × List Char → List Char → List (List Char) × List Char
  | (chunks, cc), s =>
    if cc.length / 4 + s.length / 4 ≤ chunk_size then (chunks, cc ++ s)
    else
      ((if cc = [] then chunks else chunks ++ [pyStrip cc]),
        getOverlap chunk_overlap cc ++ s)

/-- Closing of the final running chunk (`if current_chunk:` after the
loop in `split_text`). -/
def closeFinal : List (List Char) × List Char → List (List Char)
  | (chunks, cc) => if cc = [] then chunks else chunks ++ [pyStrip cc]

/-- `RecursiveTextSplitter.split_text` with the default separators. -/
def split_text (chunk_size chunk_overlap : Nat) (text : List Char) :
    List (List Char) :=
  if pyStrip text = [] then []
  else closeFinal
    ((splitBySeparators text defaultSeparators).foldl (splitStep chunk_size chunk_overlap) ([], []))

/-- Length of the longest piece in a piece list. -/
def maxLen (l : List (List Char)) : Nat :=
  l.foldr (fun s acc => max s.length acc) 0

theorem le_maxLen_of_mem {l : List (List Char)} {s : List Char} (h : s ∈ l) :
    s.length ≤ maxLen l := by
  induction l with
  | nil => cases h
  | cons x xs ih =>
    rcases List.mem_cons.mp h with h' | h'
    · subst h'; exact le_max_left _ _
    · exact le_trans (ih h') (le_max_right _ _)

theorem length_dropWhile_le (p : Char → Bool) (l : List Char) :
    (l.dropWhile p).length ≤ l.length := by
  induction l with
  | nil => simp
  | cons x xs ih =>
    rw [List.dropWhile]
    by_cases h : p x
    · simp only [h]
      exact le_trans ih (Nat.le_succ _)
    · simp [h]

theorem pyStrip_length_le (l : List Char) : (pyStrip l).length ≤ l.length := by
  unfold pyStrip
  calc (((l.dropWhile isPySpace).reverse.dropWhile isPySpace).reverse).length
      = ((l.dropWhile isPySpace).reverse.dropWhile isPySpace).length := by
        rw [List.length_reverse]
    _ ≤ (l.dropWhile isPySpace).reverse.length := length_dropWhile_le _ _
    _ = (l.dropWhile isPySpace).length := by rw [List.length_reverse]
    _ ≤ l.length := length_dropWhile_le _ _

theorem overlapTrim_length_le (overlap : List Char) :
    (overlapTrim overlap).length ≤ overlap.length := by
  unfold overlapTrim
  match findSub [' '] overlap with
  | some i =>
    by_cases hi : 0 < i
    · simp only [hi, if_true]
      rw [List.length_drop]
      omega
    · simp [hi]
  | none => simp

theorem getOverlap_length_le {chunk_overlap : Nat} (h : 1 ≤ chunk_overlap)
    (text : List Char) : (getOverlap chunk_overlap text).length ≤ chunk_overlap * 4 := by
  unfold getOverlap
  by_cases hle : text.length ≤ chunk_overlap * 4
  · simp [hle]
  · have hnz : ¬ chunk_overlap * 4 = 0 := by omega
    rw [if_neg hle, if_neg hnz]
    refine le_trans (overlapTrim_length_le _) ?_
    rw [List.length_drop]
    omega

theorem foldl_splitStep_bound {C V M B : Nat} (hV : 1 ≤ V)
    (hB1 : 4 * C + 6 ≤ B) (hB2 : 4 * V + M ≤ B) :
    ∀ (sentences : List (List Char)) (chunks : List (List Char)) (cc : List Char),
      (∀ s ∈ sentences, s.length ≤ M) →
      (∀ ch ∈ chunks, ch.length ≤ B) → cc.length ≤ B →
      (∀ ch ∈ (sentences.foldl (splitStep C V) (chunks, cc)).1, ch.length ≤ B) ∧
        (sentences.foldl (splitStep C V) (chunks, cc)).2.length ≤ B := by
  intro sentences
  induction sentences with
  | nil =>
    intro chunks cc _ hchunks hcc
    exact ⟨hchunks, hcc⟩
  | cons s ss ih =>
    intro chunks cc hs hchunks hcc
    rw [List.foldl_cons]
    have hsM : s.length ≤ M := hs s (List.mem_cons_self _ _)
    have hss : ∀ t ∈ ss, t.length ≤ M := fun t ht => hs t (List.mem_cons_of_mem _ ht)
    rw [splitStep]
    by_cases hfit : cc.length / 4 + s.length / 4 ≤ C
    · rw [if_pos hfit]
      apply ih _ _ hss hchunks
      have h1 := Nat.div_add_mod cc.length 4
      have h2 := Nat.div_add_mod s.length 4
      have h3 : cc.length % 4 < 4 := Nat.mod_lt _ (by omega)
      have h4 : s.length % 4 < 4 := Nat.mod_lt _ (by omega)
      simp only [List.length_append]
      omega
    · rw [if_neg hfit]
      apply ih
      · exact hss
      · intro ch hch
        by_cases hccnil : cc = []
        · rw [if_pos hccnil] at hch
          exact hchunks ch hch
        · rw [if_neg hccnil] at hch
          rcases List.mem_append.mp hch with h' | h'
          · exact hchunks ch h'
          · have : ch = pyStrip cc := by simpa using h'
            subst this
            exact le_trans (pyStrip_length_le cc) hcc
      · simp only [List.length_append]
        have := getOverlap_length_le hV cc
        omega

/-- Bound actually satisfied by every chunk: see `C8_splitter_chunk_bound`. -/
def chunkBound (chunk_size chunk_overlap : Nat) (text : List Char) : Nat :=
  max (4 * chunk_size + 6)
    (4 * chunk_overlap + maxLen (splitBySeparators text defaultSeparators))

/-- C8 counterexample input: `"b "` followed by 3000 `'a'`s.  The space
split yields a single 3000-character piece, which is packed into one
chunk of 3002 characters, exceeding `chunk_size * 4 = 2048` at the
default configuration (chunk_size 512, chunk_overlap 50). -/
def c8Text : List Char := 'b' :: ' ' :: List.replicate 3000 'a'

theorem dropWhile_cons_of_false {p : Char → Bool} {a : Char} {l : List Char}
    (h : p a = false) : (a :: l).dropWhile p = a :: l := by
  simp [List.dropWhile_cons, h]

theorem findSub_eq_none_of_head_notMem {c : Char} {cs l : List Char}
    (h : c ∉ l) : findSub (c :: cs) l = none := by
  induction l with
  | nil => simp [findSub]
  | cons d rest ih =>
    have hcd : (c == d) = false := by
      simp only [beq_eq_false_iff_ne, ne_eq]
      intro he
      exact h (he ▸ List.mem_cons_self d rest)
    have hpre : (c :: cs).isPrefixOf (d :: rest) = false := by
      show (c == d && cs.isPrefixOf rest) = false
      simp [hcd]
    rw [findSub, hpre]
    simp only [Bool.false_eq_true, if_false]
    rw [ih (fun hm => h (List.mem_cons_of_mem d hm))]
    rfl

theorem c8_replicate_tail_ne_nil : List.replicate 3000 'a' ≠ ([] : List Char) := by
  intro h
  have := List.length_replicate 3000 'a'
  rw [h] at this
  simp at this

theorem c8Text_length : c8Text.length = 3002 := by
  show ('b' :: ' ' :: List.replicate 3000 'a').length = 3002
  rw [List.length_cons, List.length_cons, List.length_replicate]

theorem c8Text_ne_nil : c8Text ≠ [] := by
  intro h
  have := c8Text_length
  rw [h] at this
  simp at this

theorem pyStrip_c8Text : pyStrip c8Text = c8Text := by
  have hfront : c8Text.dropWhile isPySpace = c8Text :=
    dropWhile_cons_of_false (by decide)
  have hshape : c8Text.reverse = 'a' :: (List.replicate 2999 'a' ++ ([' '] ++ ['b'])) := by
    show ('b' :: ' ' :: List.replicate 3000 'a').reverse = _
    rw [List.reverse_cons, List.reverse_cons, List.reverse_replicate,
      show (3000 : Nat) = 2999 + 1 from rfl, List.replicate_succ,
      List.cons_append, List.cons_append, List.append_assoc]
  have hback : c8Text.reverse.dropWhile isPySpace = c8Text.reverse := by
    rw [hshape]
    exact dropWhile_cons_of_false (by decide)
  unfold pyStrip
  rw [hfront, hback, List.reverse_reverse]

theorem c8_space_notMem_tail : ' ' ∉ List.replicate 3000 'a' := by
  intro h
  have := (List.mem_replicate.mp h).2
  simp at this

theorem pySplit_space_c8Text :
    pySplit [' '] c8Text = [['b'], List.replicate 3000 'a'] := by
  have hpre1 : ([' '] : List Char).isPrefixOf ('b' :: ' ' :: List.replicate 3000 'a') = false := by
    show ((' ' == 'b') && List.isPrefixOf [] (' ' :: List.replicate 3000 'a')) = false
    rfl
  have hpre2 : ([' '] : List Char).isPrefixOf (' ' :: List.replicate 3000 'a') = true := by
    show ((' ' == ' ') && List.isPrefixOf [] (List.replicate 3000 'a')) = true
    rfl
  have hfind : findSub [' '] c8Text = some 1 := by
    show findSub [' '] ('b' :: ' ' :: List.replicate 3000 'a') = some 1
    rw [findSub, hpre1]
    simp only [Bool.false_eq_true, if_false]
    rw [findSub, hpre2]
    rfl
  unfold pySplit
  rw [if_neg (by simp), c8Text_length, show (3002 : Nat) = 3001 + 1 from rfl,
    pySplitAux_of_some hfind]
  have htake : c8Text.take 1 = ['b'] := rfl
  have hdrop : c8Text.drop (1 + ([' '] : List Char).length) = List.replicate 3000 'a' := rfl
  rw [htake, hdrop, show (3001 : Nat) = 3000 + 1 from rfl,
    pySplitAux_of_none (findSub_eq_none_of_head_notMem c8_space_notMem_tail)]

theorem c8_no_newline : '\n' ∉ c8Text := by
  show '\n' ∉ 'b' :: ' ' :: List.replicate 3000 'a'
  simp only [List.mem_cons, List.mem_replicate, not_or]
  refine ⟨by decide, by decide, ?_⟩
  intro h
  exact absurd h.2 (by decide)

theorem c8_no_dot : '.' ∉ c8Text := by
  show '.' ∉ 'b' :: ' ' :: List.replicate 3000 'a'
  simp only [List.mem_cons, List.mem_replicate, not_or]
  refine ⟨by decide, by decide, ?_⟩
  intro h
  exact absurd h.2 (by decide)

theorem applySep_c8Text_notMem {c : Char} {cs : List Char} (h : c ∉ c8Text) :
    applySep (c :: cs) c8Text = [c8Text] := by
  unfold applySep
  rw [if_neg (by simp), pySplit_of_none (by simp) (findSub_eq_none_of_head_notMem h)]

theorem applySep_space_c8Text :
    applySep [' '] c8Text = [['b'], List.replicate 3000 'a'] := by
  unfold applySep
  rw [if_neg (by simp), pySplit_space_c8Text]

theorem splitBySeparators_c8Text :
    splitBySeparators c8Text defaultSeparators =
      [['b', ' '], List.replicate 3000 'a'] := by
  unfold defaultSeparators
  rw [splitBySeparators, applySep_c8Text_notMem c8_no_newline]
  rw [if_neg (by simp)]
  rw [splitBySeparators, applySep_c8Text_notMem c8_no_newline]
  rw [if_neg (by simp)]
  rw [splitBySeparators, applySep_c8Text_notMem c8_no_dot]
  rw [if_neg (by simp)]
  rw [splitBySeparators, applySep_space_c8Text]
  rw [if_pos (by decide)]
  rw [reAdd, if_neg (by decide), reAdd, if_neg c8_replicate_tail_ne_nil]
  rfl

/-- Claim C8, counterexample: the claim "every chunk returned by
split_text has at most chunk_size * 4 characters" fails at the default
configuration (chunk_size 512, chunk_overlap 50) on the input
`"b " ++ 3000 * "a"`: the splitter returns two chunks of lengths 1 and
3002, and 3002 exceeds 512 * 4 = 2048. -/
theorem C8_counterexample :
    (split_text 512 50 c8Text).map List.length = [1, 3002] ∧ 512 * 4 < 3002 := by
  constructor
  · unfold split_text
    rw [if_neg (by rw [pyStrip_c8Text]; exact c8Text_ne_nil)]
    rw [splitBySeparators_c8Text]
    rw [List.foldl_cons, List.foldl_cons, List.foldl_nil]
    have hstep1 : splitStep 512 50 ([], []) ['b', ' '] = ([], ['b', ' ']) := rfl
    rw [hstep1, splitStep]
    have hcond : ¬ ((['b', ' '] : List Char).length / 4 +
        (List.replicate 3000 'a').length / 4 ≤ 512) := by
      rw [List.length_replicate]
      decide
    rw [if_neg hcond]
    have hccne : (['b', ' '] : List Char) ≠ [] := by simp
    rw [if_neg hccne]
    have hov : getOverlap 50 ['b', ' '] = ['b', ' '] := rfl
    have hstrip : pyStrip ['b', ' '] = ['b'] := rfl
    rw [hov, hstrip]
    have happ : (['b', ' '] : List Char) ++ List.replicate 3000 'a' = c8Text := rfl
    rw [happ, closeFinal]
    rw [if_neg c8Text_ne_nil, pyStrip_c8Text]
    show List.map List.length (['b'] :: [c8Text]) = [1, 3002]
    rw [List.map_cons, List.map_cons, List.map_nil, c8Text_length]
    rfl
  · omega

/-- Claim C8 (amended): for positive chunk_overlap, every chunk returned
by split_text has at most max (chunk_size * 4 + 6)
(chunk_overlap * 4 + M) characters, where M is the length of the longest
piece produced by the separator-splitting stage.  The original
chunk_size * 4 bound fails both by the integer-division slack (+6) and,
unboundedly, when a single separator piece exceeds the budget. -/
theorem C8_splitter_chunk_bound (chunk_size chunk_overlap : Nat)
    (text : List Char) (hV : 1 ≤ chunk_overlap) :
    ∀ ch ∈ split_text chunk_size chunk_overlap text,
      ch.length ≤ chunkBound chunk_size chunk_overlap text := by
  intro ch hch
  unfold split_text at hch
  by_cases hempty : pyStrip text = []
  · simp [hempty] at hch
  · rw [if_neg hempty] at hch
    set sentences := splitBySeparators text defaultSeparators with hsent
    set M := maxLen sentences with hM
    set B := chunkBound chunk_size chunk_overlap text with hB
    have hB1 : 4 * chunk_size + 6 ≤ B := by
      rw [hB]; unfold chunkBound; exact le_max_left _ _
    have hB2 : 4 * chunk_overlap + M ≤ B := by
      rw [hB, hM, hsent]; unfold chunkBound; exact le_max_right _ _
    have hall : ∀ s ∈ sentences, s.length ≤ M := fun s hs => le_maxLen_of_mem hs
    have hmain := foldl_splitStep_bound hV hB1 hB2 sentences [] []
      hall (by intro x hx; cases hx) (by simp)
    rcases hfold : sentences.foldl (splitStep chunk_size chunk_overlap) ([], []) with ⟨cs, cc⟩
    rw [hfold] at hch hmain
    rw [closeFinal] at hch
    by_cases hcc : cc = []
    · rw [if_pos hcc] at hch
      exact hmain.1 ch hch
    · rw [if_neg hcc] at hch
      rcases List.mem_append.mp hch with h' | h'
      · exact hmain.1 ch h'
      · have : ch = pyStrip cc := by simpa using h'
        subst this
        exact le_trans (pyStrip_length_le _) hmain.2

/-- Claim C8, witness for the amended bound theorem at a concrete input. -/
theorem C8_splitter_chunk_bound_witness :
    (1 ≤ 50) ∧
      ("hello world".toList ∈ split_text 512 50 ("hello world".toList) ∧
        ("hello world".toList).length ≤ chunkBound 512 50 ("hello world".toList)) := by
  have hmem : "hello world".toList ∈ split_text 512 50 ("hello world".toList) := by
    have h : split_text 512 50 ("hello world".toList) = ["hello world".toList] := by decide
    rw [h]; exact List.mem_singleton.mpr rfl
  exact ⟨by decide, hmem,
    C8_splitter_chunk_bound 512 50 ("hello world".toList) (by decide)
      ("hello world".toList) hmem⟩

/-! ### Confidence labelling (three sites) -/

/-- Confidence normalization in `ask_compliance`
(src/heroku-api/app/services/grok4_rag_service.py lines 142-147). -/
def confidence_level_service (confidence_score : ℚ) : String :=
  if confidence_score ≥ 0.85 then "high"
  else if confidence_score ≥ 0.6 then "medium"
  else "low"

/-- Confidence label recomputed on the duplicate-query path
(src/heroku-api/app/routers/query.py line 161). -/
def confidence_label_duplicate (confidence_score : ℚ) : String :=
  if confidence_score ≥ 0.85 then "high"
  else if confidence_score ≥ 0.6 then "medium"
  else "low"

/-- Confidence label recomputed when rendering history
(src/heroku-api/app/routers/query.py lines 300-304). -/
def confidence_label_history (confidence_score : ℚ) : String :=
  if confidence_score ≥ 0.85 then "high"
  else if confidence_score ≥ 0.6 then "medium"
  else "low"

/-- Claim C2: the score-to-label mapping is the same total function at
all three sites (service, duplicate response, history rendering), and
for every score s: 0.85 ≤ s yields "high", 0.6 ≤ s < 0.85 yields
"medium", s < 0.6 yields "low" (half-open intervals). -/
theorem C2_confidence_label_boundaries (s : ℚ) :
    confidence_label_duplicate s = confidence_level_service s ∧
    confidence_label_history s = confidence_level_service s ∧
    (0.85 ≤ s → confidence_level_service s = "high") ∧
    (0.6 ≤ s ∧ s < 0.85 → confidence_level_service s = "medium") ∧
    (s < 0.6 → confidence_level_service s = "low") := by
  refine ⟨rfl, rfl, ?_, ?_, ?_⟩
  · intro h
    unfold confidence_level_service
    rw [if_pos h]
  · rintro ⟨h1, h2⟩
    unfold confidence_level_service
    rw [if_neg (not_le.mpr h2), if_pos h1]
  · intro h
    unfold confidence_level_service
    rw [if_neg (not_le.mpr (lt_of_lt_of_le h (by norm_num))), if_neg (not_le.mpr h)]

/-- Claim C2, witness: boundary scores 0.85, 0.6 and 0.599999 hit the
three branches. -/
theorem C2_confidence_label_boundaries_witness :
    confidence_level_service 0.85 = "high" ∧
    confidence_level_service 0.6 = "medium" ∧
    confidence_level_service 0.599999 = "low" :=
  ⟨(C2_confidence_label_boundaries 0.85).2.2.1 le_rfl,
    (C2_confidence_label_boundaries 0.6).2.2.2.1 ⟨le_rfl, by norm_num⟩,
    (C2_confidence_label_boundaries 0.599999).2.2.2.2 (by norm_num)⟩

/-! ### LLM compliance service (src/heroku-api/app/services/grok4_rag_service.py)

The external collaborators of `ask_compliance` are parameters of the
model: the configured API key, the outcome of `hybrid_retrieve`, the
outcome of the provider call (response text, or the exception message of
any transport/provider failure), and the JSON parser (`json.loads` plus
field lookup, `none` for a `JSONDecodeError`).  The `_client` singleton
is not modelled separately: under a fixed process environment the client
exists iff the API key is configured. -/

/-- A retrieved chunk as produced by the hybrid retriever. -/
structure RagChunk where
  text : List Char
  document_id : String
  document_title : String
  chunk_index : Nat
  score : ℚ
deriving DecidableEq

/-- One entry of the `sources` list built in `ask_compliance`. -/
structure Source where
  document_id : String
  document_title : String
  chunk_index : Nat
  relevance_score : ℚ
deriving DecidableEq

/-- The `sources.append({...})` loop of `ask_compliance`. -/
def sourcesOf (chunks : List RagChunk) : List Source :=
  chunks.map (fun c => ⟨c.document_id, c.document_title, c.chunk_index, c.score⟩)

/-- Parsed shape of the model's JSON reply: the three fields
`ask_compliance` reads, each possibly absent. -/
structure GrokJson where
  answer : Option (List Char)
  confidence : Option ℚ
  risk : Option (List Char)

/-- Errors `ask_compliance` can raise: `ModelNotAvailableException`
(HTTP 503) with an optional underlying error message as context, or
`ComplianceProcessingException` (HTTP 422) tagged with a stage. -/
inductive GrokError where
  | modelNotAvailable (message : List Char) (contextError : Option (List Char))
  | processingError (message : List Char) (stage : List Char)
deriving DecidableEq

/-- Result shape returned by `ask_compliance` on success. -/
structure AskResult where
  answer : List Char
  confidence : String
  confidence_score : ℚ
  risk : List Char
  sources : List Source
  model_used : String

/-- The fenced-code-block fallback of `ask_compliance` (lines 131-136):
`content.find("```json") + 7`, `content.find("```", json_start)`, slice,
strip.  A missing closing fence makes Python's `find` return `-1`, so
the slice then drops the final character (`content[start:-1]`). -/
def extractFenced (content : List Char) : List Char :=
  match findSub ("```json".toList) content with
  | none => content
  | some idx =>
    match findSub ("```".toList) (content.drop (idx + 7)) with
    | some j => pyStrip ((content.drop (idx + 7)).take j)
    | none => pyStrip ((content.take (content.length - 1)).drop (idx + 7))

/-- Result normalization of `ask_compliance` (lines 140-156): missing
`confidence` defaults to 0.5, missing `answer` and `risk` fall back to
fixed strings, sources and model identifier are attached. -/
def mkAskResult (data : GrokJson) (chunks : List RagChunk) : AskResult :=
  { answer := data.answer.getD ("Unable to determine answer from sources.".toList)
    confidence := confidence_level_service (data.confidence.getD 0.5)
    confidence_score := data.confidence.getD 0.5
    risk := data.risk.getD ("unknown".toList)
    sources := sourcesOf chunks
    model_used := "grok-4-latest" }

/-- `ask_compliance`: API-key guard, retrieval, provider call, JSON
parsing with fenced-block fallback, error translation.  Any exception
from retrieval or the provider call is caught by the final
`except Exception` and re-raised as `ModelNotAvailableException` with
the underlying message as context; `json.JSONDecodeError` (from either
parse attempt) is re-raised as `ComplianceProcessingException` with
stage `json_parsing`. -/
def ask_compliance (apiKey : Option (List Char))
    (retrieval : Except (List Char) (List RagChunk))
    (llmCall : Except (List Char) (List Char))
    (jparse : List Char → Option GrokJson) :
    Except GrokError AskResult :=
  match apiKey with
  | none => .error (.modelNotAvailable ("XAI_API_KEY not set".toList) none)
  | some _ =>
    match retrieval with
    | .error e => .error (.modelNotAvailable ("Grok-4 unavailable".toList) (some e))
    | .ok chunks =>
      match llmCall with
      | .error e => .error (.modelNotAvailable ("Grok-4 unavailable".toList) (some e))
      | .ok content =>
        match jparse content with
        | some data => .ok (mkAskResult data chunks)
        | none =>
          if (findSub ("```json".toList) content).isSome then
            match jparse (extractFenced content) with
            | some data => .ok (mkAskResult data chunks)
            | none =>
              .error (.processingError ("Failed to parse Grok-4 response".toList)
                ("json_parsing".toList))
          else
            .error (.processingError ("Failed to parse Grok-4 response".toList)
              ("json_parsing".toList))

/-- Claim C7: (1) with no API key configured the call raises
model-unavailable, independent of retrieval, provider call and parser
(no LLM call is attempted); (2) a response body failing JSON parsing —
directly and, when a fenced block exists, through the fallback — raises
a processing error with stage `json_parsing`; (3) a retrieval or
provider failure is re-raised as model-unavailable carrying the
underlying message as context; so every outcome is a typed error or a
success, never a raw provider exception. -/
theorem C7_ask_compliance_failures :
    (∀ retrieval llmCall jparse,
      ask_compliance none retrieval llmCall jparse =
        .error (.modelNotAvailable ("XAI_API_KEY not set".toList) none)) ∧
    (∀ k chunks content jparse, jparse content = none →
      ((findSub ("```json".toList) content) = none ∨
        jparse (extractFenced content) = none) →
      ask_compliance (some k) (.ok chunks) (.ok content) jparse =
        .error (.processingError ("Failed to parse Grok-4 response".toList)
          ("json_parsing".toList))) ∧
    (∀ k retrieval e jparse, retrieval = Except.error e →
      ask_compliance (some k) retrieval (.error e) jparse =
        .error (.modelNotAvailable ("Grok-4 unavailable".toList) (some e))) ∧
    (∀ k chunks e jparse,
      ask_compliance (some k) (.ok chunks) (.error e) jparse =
        .error (.modelNotAvailable ("Grok-4 unavailable".toList) (some e))) := by
  refine ⟨fun _ _ _ => rfl, ?_, ?_, fun _ _ _ _ => rfl⟩
  · intro k chunks content jparse hparse hfall
    rcases hfall with h | h
    · simp only [ask_compliance, hparse, h]
      rfl
    · simp only [ask_compliance, hparse, h]
      split <;> rfl
  · intro k retrieval e jparse h
    subst h
    rfl

/-- Claim C7, witness: the three failure modes at concrete inputs
(parser that always fails, body without a fenced block, provider error
"boom"). -/
theorem C7_ask_compliance_failures_witness :
    ((fun _ => (none : Option GrokJson)) ("nope".toList) = none ∧
      (findSub ("```json".toList) ("nope".toList) = none ∨
        (fun _ => (none : Option GrokJson)) (extractFenced ("nope".toList)) = none)) ∧
    (Except.error ("down".toList) = Except.error (ε := List Char) (α := List RagChunk) ("down".toList)) ∧
    (ask_compliance none (.ok []) (.ok ("x".toList)) (fun _ => none) =
        .error (.modelNotAvailable ("XAI_API_KEY not set".toList) none) ∧
      ask_compliance (some ("key".toList)) (.ok []) (.ok ("nope".toList)) (fun _ => none) =
        .error (.processingError ("Failed to parse Grok-4 response".toList)
          ("json_parsing".toList)) ∧
      ask_compliance (some ("key".toList)) (.error ("down".toList))
          (.error ("down".toList)) (fun _ => none) =
        .error (.modelNotAvailable ("Grok-4 unavailable".toList) (some ("down".toList)))) :=
  ⟨⟨rfl, Or.inl (by decide)⟩, rfl,
    C7_ask_compliance_failures.1 (.ok []) (.ok ("x".toList)) (fun _ => none),
    C7_ask_compliance_failures.2.1 ("key".toList) [] ("nope".toList) (fun _ => none)
      rfl (Or.inl (by decide)),
    C7_ask_compliance_failures.2.2.1 ("key".toList) (.error ("down".toList))
      ("down".toList) (fun _ => none) rfl⟩

/-! ### Persistence model (src/heroku-api/app/database/models.py)

Each table is a list of rows; UUIDs are opaque strings drawn from a
fresh-id counter.  Timestamps are microseconds (`datetime.utcnow()`
resolution).  `ComplianceDocument.version` is declared `String(20)` in
models.py, so a value loaded from the database is a Python `str`; the
admin handler nevertheless treats it as an `int`.  To keep that visible
the field is embedded as a `PyVal` (a Python value that is either an
int or a str) and `+= 1` as `pyAddOne`, which raises `TypeError` on a
str exactly as Python does. -/

/-- A dynamically typed Python value (only the two shapes the
`version` column can hold). -/
inductive PyVal where
  | pyInt (n : Int)
  | pyStr (s : List Char)
deriving DecidableEq

/-- Python `v += 1`: succeeds on an int, raises `TypeError` on a str. -/
def pyAddOne : PyVal → Except (List Char) PyVal
  | .pyInt n => .ok (.pyInt (n + 1))
  | .pyStr _ =>
    .error ("TypeError: can only concatenate str (not \"int\") to str".toList)

/-- User row (the columns touched by the modelled handlers). -/
structure UserRow where
  id : String
  discord_id : String
  discord_username : String
  discord_discriminator : String
  role : String
  is_banned : Bool
  total_queries : Nat
  queries_today : Nat
  last_query_at : Option Int
  daily_query_limit : Nat
  created_at : Int
deriving DecidableEq

/-- QueryLog row. -/
structure QueryLogRow where
  id : String
  user_id : String
  query_text : List Char
  query_hash : String
  response_text : List Char
  confidence_score : ℚ
  risk_level : List Char
  model_used : String
  response_time_ms : Nat
  rag_chunks_used : Nat
  rag_sources : List Source
  session_id : Option String
  is_flagged : Bool
  created_at : Int
deriving DecidableEq

/-- QueryFeedback row. -/
structure FeedbackRow where
  id : String
  user_id : String
  query_id : String
  overall_rating : Nat
  helpfulness_rating : Nat
  accuracy_rating : Nat
  feedback_text : Option (List Char)
  follow_up_needed : Bool
  escalated : Bool
  escalation_reason : Option (List Char)
  created_at : Int
deriving DecidableEq

/-- ComplianceDocument row.  `content`, `category`, `source_hash` and
`effective_date` are `nullable=False` columns without defaults, carried
as `Option` so the NOT NULL check at insert time can be expressed. -/
structure DocumentRow where
  id : String
  document_id : String
  title : List Char
  version : PyVal
  content : Option (List Char)
  document_type : List Char
  category : Option (List Char)
  source_url : Option (List Char)
  source_hash : Option (List Char)
  effective_date : Option Int
  is_active : Bool
  last_indexed_at : Option Int
  created_at : Int
  updated_at : Int
deriving DecidableEq

/-- The whole relational state plus a fresh-uuid counter. -/
structure DBState where
  users : List UserRow
  queryLogs : List QueryLogRow
  feedbacks : List FeedbackRow
  documents : List DocumentRow
  auditEventTypes : List String
  nextIdNum : Nat
deriving DecidableEq

/-- Empty database. -/
def initState : DBState := ⟨[], [], [], [], [], 0⟩

/-- Fresh UUID abstraction (`uuid.uuid4`). -/
def freshId (n : Nat) : String := "uuid-" ++ toString n

/-- Mapped column names of `SystemAuditLog` (models.py lines 242-278). -/
def systemAuditLogColumns : List String :=
  ["id", "event_type", "event_category", "severity", "actor_id", "actor_type",
    "target_type", "target_id", "description", "metadata", "ip_address",
    "user_agent", "request_id", "retention_days", "created_at"]

/-- SQLAlchemy's declarative constructor accepts only mapped attribute
names as keyword arguments and raises `TypeError` otherwise. -/
def sqlalchemyConstructorOk (kwargs : List String) : Bool :=
  kwargs.all (fun k => systemAuditLogColumns.contains k)

/-- Keyword arguments the admin handlers pass to `SystemAuditLog(...)`
(`event_type`, `actor_id`, `target_resource`, `action_details`); the
last two are not columns of the model. -/
def adminAuditKwargs : List String :=
  ["event_type", "actor_id", "target_resource", "action_details"]

/-- API-level outcomes: FastAPI `HTTPException`s (status, detail),
`RateLimitExceededException` (its `retry_after` attribute), pydantic
validation rejections, re-raised LLM-service errors, and uncaught
Python exceptions (translated by the entrypoint to a generic 500). -/
inductive ApiError where
  | http (status : Nat) (detail : List Char)
  | rateLimit (limit : Nat) (retry_after : Int)
  | validation (msg : List Char)
  | grok (e : GrokError)
  | pythonError (msg : List Char)
deriving DecidableEq

/-! ### Query router (src/heroku-api/app/routers/query.py) -/

/-- Python `s.split()` (no argument): whitespace runs separate words,
no empty pieces. -/
def pyWordsAux : Nat → List Char → List (List Char)
  | 0, _ => []
  | fuel + 1, l =>
    match l.dropWhile isPySpace with
    | [] => []
    | c :: rest =>
      (c :: rest).takeWhile (fun d => !(isPySpace d)) ::
        pyWordsAux fuel ((c :: rest).dropWhile (fun d => !(isPySpace d)))

/-- Python `s.split()` via a fuelled worker. -/
def pyWords (l : List Char) : List (List Char) := pyWordsAux l.length l

/-- Request body of `POST /api/v1/query` after FastAPI parsing. -/
structure QueryRequest where
  query : List Char
  user_id : String
  session_id : Option String

/-- Pydantic validation of the `query` field: `Field` length bounds
10-2000 on the raw value, then the `validate_query` validator (reject
blank, reject fewer than 3 whitespace-separated words, return the
stripped text). -/
def validate_query (raw : List Char) : Except ApiError (List Char) :=
  if raw.length < 10 ∨ 2000 < raw.length then
    .error (.validation ("length out of range".toList))
  else if pyStrip raw = [] then
    .error (.validation ("Query cannot be empty".toList))
  else if (pyWords (pyStrip raw)).length < 3 then
    .error (.validation ("Query too short - please provide more detail".toList))
  else .ok (pyStrip raw)

/-- Response body of a successful query. -/
structure QueryResponse where
  answer : List Char
  confidence : String
  confidence_score : ℚ
  risk : List Char
  sources : List Source
  query_id : String
  response_time_ms : Nat
deriving DecidableEq

/-- `_get_or_create_user`: look up by Discord id; create with
placeholder username `user_<id>`, discriminator `"0000"`, role `user`
and the column defaults (counters 0, daily limit 100) when absent. -/
def get_or_create_user (now : Int) (st : DBState) (discord_id : String) :
    UserRow × DBState :=
  match st.users.find? (fun u => u.discord_id == discord_id) with
  | some u => (u, st)
  | none =>
    let u : UserRow :=
      { id := freshId st.nextIdNum
        discord_id := discord_id
        discord_username := "user_" ++ discord_id
        discord_discriminator := "0000"
        role := "user"
        is_banned := false
        total_queries := 0
        queries_today := 0
        last_query_at := none
        daily_query_limit := 100
        created_at := now }
    (u, { st with users := st.users ++ [u], nextIdNum := st.nextIdNum + 1 })

/-- `_seconds_until_midnight`: `int((tomorrow - now).total_seconds())`
with `now = datetime.utcnow()`; `now` is microseconds since the epoch,
so the remainder modulo a day is the time of day. -/
def seconds_until_midnight (now : Int) : Int :=
  (86400000000 - now % 86400000000) / 1000000

/-- Five-minute deduplication window in microseconds. -/
def dedupWindow : Int := 300000000

/-- The row predicate of the deduplication query: same user, same
SHA-256 hash, created within the last 5 minutes (strictly). -/
def isRecentDuplicate (userId : String) (queryHash : String) (now : Int)
    (q : QueryLogRow) : Bool :=
  q.user_id == userId && q.query_hash == queryHash &&
    decide (now - dedupWindow < q.created_at)

/-- The `QueryLog(...)` constructor call at step 7 of `process_query`:
the flag is set automatically when the confidence score is strictly
below 0.5. -/
def mkQueryLogRow (now : Int) (latencyMs : Nat) (req : QueryRequest) (user : UserRow)
    (query_hash : String) (result : AskResult) (idStr : String) : QueryLogRow :=
  { id := idStr
    user_id := user.id
    query_text := req.query
    query_hash := query_hash
    response_text := result.answer
    confidence_score := result.confidence_score
    risk_level := result.risk
    model_used := result.model_used
    response_time_ms := latencyMs
    rag_chunks_used := result.sources.length
    rag_sources := result.sources
    session_id := req.session_id
    is_flagged := decide (result.confidence_score < 0.5)
    created_at := now }

/-- `process_query`: the handler body of `POST /api/v1/query`.
External collaborators are parameters: `hashFn` (SHA-256 hexdigest),
`llm` (the outcome `ask_compliance` would produce if invoked),
`redisCount` (the Redis counter after `INCR`) and `redisTtl` (its TTL)
for `_check_rate_limit`, `now` (`datetime.utcnow()`), `latencyMs` (the
measured elapsed time).  `req.query` is the validated (stripped) text.
Returns the response or typed error, paired with the committed state. -/
def process_query (hashFn : List Char → String) (llm : Except GrokError AskResult)
    (now : Int) (latencyMs : Nat) (redisCount : Nat) (redisTtl : Int)
    (req : QueryRequest) (st : DBState) :
    Except ApiError QueryResponse × DBState :=
  if 30 < redisCount then
    (.error (.rateLimit 30 (if 0 < redisTtl then redisTtl else 60)), st)
  else
    match get_or_create_user now st req.user_id with
    | (user, st1) =>
      if user.daily_query_limit ≤ user.queries_today then
        (.error (.rateLimit user.daily_query_limit (seconds_until_midnight now)), st1)
      else
        match st1.queryLogs.find? (isRecentDuplicate user.id (hashFn req.query) now) with
        | some dup =>
          (.ok { answer := dup.response_text
                 confidence := confidence_label_duplicate dup.confidence_score
                 confidence_score := dup.confidence_score
                 risk := dup.risk_level
                 sources := dup.rag_sources
                 query_id := dup.id
                 response_time_ms := latencyMs }, st1)
        | none =>
          match llm with
          | .error e => (.error (.grok e), st1)
          | .ok result =>
            let qlog : QueryLogRow :=
              mkQueryLogRow now latencyMs req user (hashFn req.query) result
                (freshId st1.nextIdNum)
            (.ok { answer := result.answer
                   confidence := result.confidence
                   confidence_score := result.confidence_score
                   risk := result.risk
                   sources := result.sources
                   query_id := qlog.id
                   response_time_ms := latencyMs },
              { st1 with
                users := st1.users.map (fun u =>
                  if u.id == user.id then
                    { u with total_queries := u.total_queries + 1
                             queries_today := u.queries_today + 1
                             last_query_at := some now }
                  else u)
                queryLogs := st1.queryLogs ++ [qlog]
                nextIdNum := st1.nextIdNum + 1 })

/-- Request body of `POST /api/v1/feedback`. -/
structure FeedbackRequest where
  query_id : String
  overall_rating : Nat
  helpfulness_rating : Nat
  accuracy_rating : Nat
  feedback_text : Option (List Char)
  follow_up_needed : Bool
  escalated : Bool

/-- The `QueryFeedback(...)` constructor call of `submit_feedback`:
`escalation_reason` is the feedback text when escalated, else null. -/
def mkFeedbackRow (now : Int) (req : FeedbackRequest) (qlog : QueryLogRow)
    (idStr : String) : FeedbackRow :=
  { id := idStr
    user_id := qlog.user_id
    query_id := qlog.id
    overall_rating := req.overall_rating
    helpfulness_rating := req.helpfulness_rating
    accuracy_rating := req.accuracy_rating
    feedback_text := req.feedback_text
    follow_up_needed := req.follow_up_needed
    escalated := req.escalated
    escalation_reason := if req.escalated then req.feedback_text else none
    created_at := now }

/-- `submit_feedback`: 404 on unknown query, 409 when feedback already
exists, otherwise insert with `escalation_reason` set to the feedback
text when escalated. -/
def submit_feedback (now : Int) (req : FeedbackRequest) (st : DBState) :
    Except ApiError (String × String) × DBState :=
  match st.queryLogs.find? (fun q => q.id == req.query_id) with
  | none => (.error (.http 404 ("Query not found".toList)), st)
  | some qlog =>
    match st.feedbacks.find? (fun f => f.query_id == qlog.id) with
    | some _ => (.error (.http 409 ("Feedback already submitted".toList)), st)
    | none =>
      let fb : FeedbackRow := mkFeedbackRow now req qlog (freshId st.nextIdNum)
      (.ok ("success", fb.id),
        { st with feedbacks := st.feedbacks ++ [fb], nextIdNum := st.nextIdNum + 1 })

/-! ### Admin router (src/heroku-api/app/routers/admin.py)

The handlers are modelled after `verify_admin` has passed (it is a
FastAPI dependency executed before the body). -/

/-- `gdpr_delete_user_data`: confirmation check, lookup, before-counts,
delete feedback then query logs, reset counters, commit; then the
`SystemAuditLog(...)` construction — whose `target_resource` and
`action_details` keyword arguments are not mapped columns, so the
declarative constructor raises `TypeError` after the deletion commit. -/
def gdpr_delete_user_data (now : Int) (user_id confirm : String) (st : DBState) :
    Except ApiError (String × Nat × Nat) × DBState :=
  if confirm ≠ user_id then
    (.error (.http 400
      ("Confirmation mismatch. Pass user_id as 'confirm' query parameter.".toList)), st)
  else
    match st.users.find? (fun u => u.id == user_id) with
    | none => (.error (.http 404 ("User not found".toList)), st)
    | some user =>
      let query_count := (st.queryLogs.filter (fun q => q.user_id == user.id)).length
      let feedback_count := (st.feedbacks.filter (fun f => f.user_id == user.id)).length
      let st1 : DBState :=
        { st with
          feedbacks := st.feedbacks.filter (fun f => !(f.user_id == user.id))
          queryLogs := st.queryLogs.filter (fun q => !(q.user_id == user.id))
          users := st.users.map (fun u =>
            if u.id == user.id then
              { u with total_queries := 0, queries_today := 0, last_query_at := none }
            else u) }
      if sqlalchemyConstructorOk adminAuditKwargs then
        (.ok ("success", query_count, feedback_count),
          { st1 with auditEventTypes := st1.auditEventTypes ++ ["gdpr_data_deletion"] })
      else
        (.error (.pythonError
          ("TypeError: 'target_resource' is an invalid keyword argument for SystemAuditLog".toList)),
          st1)

/-- Request body of `POST /admin/model/retrain`. -/
structure RetrainRequest where
  document_url : List Char
  document_id : String
  document_title : List Char
  document_type : List Char
  force_reindex : Bool

/-- The `ComplianceDocument(...)` constructor call in the create branch
of `trigger_model_retrain`: only these attributes are supplied, leaving
the NOT NULL columns `content`, `category`, `source_hash` and
`effective_date` unset, so the INSERT violates the schema and the
commit raises `IntegrityError`. -/
def commitInsertDocument (now : Int) (idStr : String) (req : RetrainRequest) :
    Except (List Char) DocumentRow :=
  let d : DocumentRow :=
    { id := idStr
      document_id := req.document_id
      title := req.document_title
      version := .pyInt 1
      content := none
      document_type := req.document_type
      category := none
      source_url := some req.document_url
      source_hash := none
      effective_date := none
      is_active := true
      last_indexed_at := some now
      created_at := now
      updated_at := now }
  if d.content.isSome && d.category.isSome && d.source_hash.isSome &&
      d.effective_date.isSome then
    .ok d
  else
    .error ("IntegrityError: null value in not-null column".toList)

/-- `trigger_model_retrain`: 409 when the document exists and reindex
is not forced; otherwise ingest, then either increment the stored
version (`+= 1` on a value loaded from a `String(20)` column) or insert
a fresh record; every exception inside the `try` is caught and surfaced
as an HTTP 500 carrying the message. -/
def trigger_model_retrain (now : Int) (ingest : Except (List Char) Unit)
    (req : RetrainRequest) (st : DBState) :
    Except ApiError (String × PyVal) × DBState :=
  match st.documents.find? (fun d => d.document_id == req.document_id) with
  | some existing_doc =>
    if !req.force_reindex then
      (.error (.http 409 ("Document already exists. Use force_reindex=true to reindex.".toList)), st)
    else
      match ingest with
      | .error e => (.error (.http 500 (("Document ingestion failed: ".toList) ++ e)), st)
      | .ok _ =>
        match pyAddOne existing_doc.version with
        | .error e => (.error (.http 500 (("Document ingestion failed: ".toList) ++ e)), st)
        | .ok v' =>
          let updated := { existing_doc with
            version := v', last_indexed_at := some now, updated_at := now }
          let st1 := { st with documents := st.documents.map (fun d =>
            if d.document_id == req.document_id then updated else d) }
          if sqlalchemyConstructorOk adminAuditKwargs then
            (.ok ("success", v'),
              { st1 with auditEventTypes := st1.auditEventTypes ++ ["model_retrained"] })
          else
            (.error (.http 500
              ("Document ingestion failed: TypeError: 'target_resource' is an invalid keyword argument for SystemAuditLog".toList)),
              st1)
  | none =>
    match ingest with
    | .error e => (.error (.http 500 (("Document ingestion failed: ".toList) ++ e)), st)
    | .ok _ =>
      match commitInsertDocument now (freshId st.nextIdNum) req with
      | .error e => (.error (.http 500 (("Document ingestion failed: ".toList) ++ e)), st)
      | .ok doc =>
        let st1 := { st with documents := st.documents ++ [doc], nextIdNum := st.nextIdNum + 1 }
        if sqlalchemyConstructorOk adminAuditKwargs then
          (.ok ("success", doc.version),
            { st1 with auditEventTypes := st1.auditEventTypes ++ ["model_retrained"] })
        else
          (.error (.http 500
            ("Document ingestion failed: TypeError: 'target_resource' is an invalid keyword argument for SystemAuditLog".toList)),
            st1)

/-! ### Reachability -/

/-- One request handled by any modelled operation (the committed state
it leaves behind, whatever the outcome). -/
inductive Step : DBState → DBState → Prop
  | query (hashFn : List Char → String) (llm : Except GrokError AskResult)
      (now : Int) (latencyMs : Nat) (redisCount : Nat) (redisTtl : Int)
      (req : QueryRequest) (st : DBState) :
      Step st (process_query hashFn llm now latencyMs redisCount redisTtl req st).2
  | feedback (now : Int) (req : FeedbackRequest) (st : DBState) :
      Step st (submit_feedback now req st).2
  | gdpr (now : Int) (user_id confirm : String) (st : DBState) :
      Step st (gdpr_delete_user_data now user_id confirm st).2
  | retrain (now : Int) (ingest : Except (List Char) Unit)
      (req : RetrainRequest) (st : DBState) :
      Step st (trigger_model_retrain now ingest req st).2

/-- States reachable from the empty database through the modelled
operations. -/
def Reachable (st : DBState) : Prop :=
  Relation.ReflTransGen Step initState st

/-- Number of feedback rows attached to a query id. -/
def feedbackCount (st : DBState) (qid : String) : Nat :=
  (st.feedbacks.filter (fun f => f.query_id == qid)).length

theorem get_or_create_user_found {now : Int} {st : DBState} {discord_id : String}
    {user : UserRow} (h : st.users.find? (fun u => u.discord_id == discord_id) = some user) :
    get_or_create_user now st discord_id = (user, st) := by
  unfold get_or_create_user
  rw [h]

theorem validate_query_ok {raw q : List Char} (h : validate_query raw = .ok q) :
    q = pyStrip raw := by
  unfold validate_query at h
  split_ifs at h
  · exact ((Except.ok.inj h)).symm

/-- Claim C5: for a user whose `queries_today` has reached
`daily_query_limit`, `process_query` (once past the per-minute Redis
limiter, step 1 of the handler) rejects with the daily rate-limit error
whose `retry_after` is `_seconds_until_midnight()`, leaving the state
unchanged (no QueryLog, no counter change); and `seconds_until_midnight`
is exactly the whole number of seconds remaining to the next UTC
midnight (the floor of the remaining microseconds over 10^6). -/
theorem C5_daily_limit_enforcement
    (hashFn : List Char → String) (llm : Except GrokError AskResult) (now : Int)
    (latencyMs : Nat) (redisCount : Nat) (redisTtl : Int) (req : QueryRequest)
    (st : DBState) (user : UserRow)
    (hrc : redisCount ≤ 30)
    (hfind : st.users.find? (fun u => u.discord_id == req.user_id) = some user)
    (hlim : user.daily_query_limit ≤ user.queries_today) :
    process_query hashFn llm now latencyMs redisCount redisTtl req st =
      (.error (.rateLimit user.daily_query_limit (seconds_until_midnight now)), st) ∧
    0 ≤ seconds_until_midnight now ∧
    seconds_until_midnight now * 1000000 ≤ 86400000000 - now % 86400000000 ∧
    86400000000 - now % 86400000000 < (seconds_until_midnight now + 1) * 1000000 := by
  refine ⟨?_, ?_, ?_, ?_⟩
  · unfold process_query
    rw [if_neg (by omega : ¬ 30 < redisCount)]
    simp only [get_or_create_user_found hfind]
    rw [if_pos hlim]
  · unfold seconds_until_midnight
    omega
  · unfold seconds_until_midnight
    omega
  · unfold seconds_until_midnight
    omega

/-- Fixture user for witnesses: an existing user at their daily limit. -/
def wUserLimited : UserRow :=
  { id := "U1", discord_id := "d1", discord_username := "user_d1"
    discord_discriminator := "0000", role := "user", is_banned := false
    total_queries := 5, queries_today := 1, last_query_at := none
    daily_query_limit := 1, created_at := 0 }

/-- Fixture state for the C5 witness. -/
def wStateLimited : DBState :=
  { users := [wUserLimited], queryLogs := [], feedbacks := [], documents := []
    auditEventTypes := [], nextIdNum := 3 }

/-- Claim C5, witness at a concrete user/state (limit 1 reached, two
seconds past midnight). -/
theorem C5_daily_limit_enforcement_witness :
    process_query (fun _ => "H") (.error (.modelNotAvailable [] none)) 2000000 5 1 30
        ⟨"what is rule x".toList, "d1", none⟩ wStateLimited =
      (.error (.rateLimit 1 (seconds_until_midnight 2000000)), wStateLimited) ∧
    0 ≤ seconds_until_midnight 2000000 ∧
    seconds_until_midnight 2000000 * 1000000 ≤ 86400000000 - 2000000 % 86400000000 ∧
    86400000000 - 2000000 % 86400000000 < (seconds_until_midnight 2000000 + 1) * 1000000 :=
  C5_daily_limit_enforcement (fun _ => "H") (.error (.modelNotAvailable [] none))
    2000000 5 1 30 ⟨"what is rule x".toList, "d1", none⟩ wStateLimited wUserLimited
    (by omega) (by decide) (by decide)

/-- Claim C3: once a request reaches the deduplication step (the query
passed validation, the per-minute limiter and the daily limit), if some
QueryLog of the same user carries the same hash of the trimmed query
text and was created within the last 5 minutes, the handler answers
from that stored row (its id and response text), changes no state at
all (no new QueryLog, counters untouched), and never consults the LLM
(the conclusion holds for every `llm` value uniformly). -/
theorem C3_duplicate_suppression
    (hashFn : List Char → String) (llm : Except GrokError AskResult) (now : Int)
    (latencyMs : Nat) (redisCount : Nat) (redisTtl : Int) (raw : List Char)
    (uid : String) (sid : Option String) (st : DBState) (user : UserRow) (q : List Char)
    (hval : validate_query raw = .ok q)
    (hrc : redisCount ≤ 30)
    (hfind : st.users.find? (fun u => u.discord_id == uid) = some user)
    (hlim : user.queries_today < user.daily_query_limit)
    (hdup : ∃ row ∈ st.queryLogs, row.user_id = user.id ∧ row.query_hash = hashFn q ∧
      now - dedupWindow < row.created_at) :
    q = pyStrip raw ∧
    ∃ dup ∈ st.queryLogs, dup.user_id = user.id ∧ dup.query_hash = hashFn q ∧
      now - dedupWindow < dup.created_at ∧
      process_query hashFn llm now latencyMs redisCount redisTtl ⟨q, uid, sid⟩ st =
        (.ok { answer := dup.response_text
               confidence := confidence_label_duplicate dup.confidence_score
               confidence_score := dup.confidence_score
               risk := dup.risk_level
               sources := dup.rag_sources
               query_id := dup.id
               response_time_ms := latencyMs }, st) := by
  refine ⟨validate_query_ok hval, ?_⟩
  have hsome : (st.queryLogs.find? (isRecentDuplicate user.id (hashFn q) now)).isSome := by
    rw [List.find?_isSome]
    obtain ⟨row, hmem, h1, h2, h3⟩ := hdup
    refine ⟨row, hmem, ?_⟩
    unfold isRecentDuplicate
    simp [h1, h2, h3]
  obtain ⟨dup, hfd⟩ := Option.isSome_iff_exists.mp hsome
  have hprops := List.find?_some hfd
  unfold isRecentDuplicate at hprops
  simp only [Bool.and_eq_true, beq_iff_eq, decide_eq_true_eq] at hprops
  refine ⟨dup, List.mem_of_find?_eq_some hfd, hprops.1.1, hprops.1.2, hprops.2, ?_⟩
  unfold process_query
  rw [if_neg (by omega : ¬ 30 < redisCount)]
  simp only [get_or_create_user_found hfind]
  rw [if_neg (by omega : ¬ user.daily_query_limit ≤ user.queries_today)]
  simp only [hfd]

/-- Fixture user under their daily limit. -/
def wUserFree : UserRow :=
  { wUserLimited with daily_query_limit := 100 }

/-- Fixture stored answer for the duplicate-window witness. -/
def wLogRecent : QueryLogRow :=
  { id := "Q1", user_id := "U1", query_text := "what is rule x".toList
    query_hash := "H", response_text := "ans".toList, confidence_score := 0.9
    risk_level := "low".toList, model_used := "grok-4-latest"
    response_time_ms := 10, rag_chunks_used := 0, rag_sources := []
    session_id := none, is_flagged := false, created_at := 1000000 }

/-- Fixture state with one user and one recent log. -/
def wStateDup : DBState :=
  { users := [wUserFree], queryLogs := [wLogRecent], feedbacks := []
    documents := [], auditEventTypes := [], nextIdNum := 7 }

/-- Claim C3, witness: resubmitting "what is rule x" one second after
the stored row was created is answered from the store even though the
LLM stub would fail. -/
theorem C3_duplicate_suppression_witness :
    "what is rule x".toList = pyStrip ("what is rule x".toList) ∧
    ∃ dup ∈ wStateDup.queryLogs, dup.user_id = wUserFree.id ∧
      dup.query_hash = (fun _ => "H") ("what is rule x".toList) ∧
      2000000 - dedupWindow < dup.created_at ∧
      process_query (fun _ => "H") (.error (.modelNotAvailable [] none)) 2000000 5 1 30
          ⟨"what is rule x".toList, "d1", none⟩ wStateDup =
        (.ok { answer := dup.response_text
               confidence := confidence_label_duplicate dup.confidence_score
               confidence_score := dup.confidence_score
               risk := dup.risk_level
               sources := dup.rag_sources
               query_id := dup.id
               response_time_ms := 5 }, wStateDup) :=
  C3_duplicate_suppression (fun _ => "H") (.error (.modelNotAvailable [] none))
    2000000 5 1 30 ("what is rule x".toList) "d1" none wStateDup wUserFree
    ("what is rule x".toList) rfl (by omega) (by decide) (by decide)
    ⟨wLogRecent, List.mem_singleton.mpr rfl, rfl, rfl, by decide⟩

/-- Fixture feedback row owned by user U1. -/
def wFeedback : FeedbackRow :=
  { id := "F1", user_id := "U1", query_id := "Q1", overall_rating := 5
    helpfulness_rating := 5, accuracy_rating := 5, feedback_text := none
    follow_up_needed := false, escalated := false, escalation_reason := none
    created_at := 0 }

/-- Fixture state for the GDPR evaluation: one user with nonzero
counters, one query log and one feedback row, all owned by U1. -/
def c1State : DBState :=
  { users := [wUserFree], queryLogs := [wLogRecent], feedbacks := [wFeedback]
    documents := [], auditEventTypes := [], nextIdNum := 9 }

/-- U1 after the GDPR counter reset. -/
def c1UserReset : UserRow :=
  { wUserFree with total_queries := 0, queries_today := 0, last_query_at := none }

/-- Database state after the GDPR deletion commit: rows gone, counters
zeroed — but no audit entry, because the handler crashed building it. -/
def c1Deleted : DBState :=
  { c1State with users := [c1UserReset], queryLogs := [], feedbacks := [] }

/-- Claim C1, evaluated: a mismatched `confirm` is rejected with 400
and deletes nothing; a correctly confirmed request deletes all of the
user's query and feedback rows and zeroes the counters (the commit
succeeds), but the handler then raises `TypeError` constructing
`SystemAuditLog(target_resource=..., action_details=...)` — keyword
arguments that are not columns of the model — so the caller receives a
500 instead of the `queries_deleted`/`feedback_deleted` report the
claim describes. -/
theorem C1_gdpr_deletion_evaluated :
    gdpr_delete_user_data 0 "U1" "U2" c1State =
      (.error (.http 400
        ("Confirmation mismatch. Pass user_id as 'confirm' query parameter.".toList)),
        c1State) ∧
    gdpr_delete_user_data 0 "U1" "U1" c1State =
      (.error (.pythonError
        ("TypeError: 'target_resource' is an invalid keyword argument for SystemAuditLog".toList)),
        c1Deleted) ∧
    c1Deleted.queryLogs = [] ∧ c1Deleted.feedbacks = [] ∧
    c1Deleted.users = [c1UserReset] ∧
    c1UserReset.total_queries = 0 ∧ c1UserReset.queries_today = 0 :=
  ⟨rfl, rfl, rfl, rfl, rfl, rfl, rfl⟩

/-- Fixture document whose stored version, loaded from the
`String(20)` column, is the Python string "1". -/
def c6Doc : DocumentRow :=
  { id := "D1", document_id := "doc-1", title := "Policy".toList
    version := .pyStr ['1'], content := some [], document_type := "policy".toList
    category := some [], source_url := none, source_hash := some []
    effective_date := some 0, is_active := true, last_indexed_at := some 0
    created_at := 0, updated_at := 0 }

/-- Fixture state holding the existing document. -/
def c6State : DBState :=
  { users := [], queryLogs := [], feedbacks := [], documents := [c6Doc]
    auditEventTypes := [], nextIdNum := 2 }

/-- Fixture state with no documents. -/
def c6StateNoDoc : DBState := { c6State with documents := [] }

/-- Retrain request for the existing document without force. -/
def c6ReqNoForce : RetrainRequest :=
  ⟨"http://x/p.pdf".toList, "doc-1", "Policy".toList, "policy".toList, false⟩

/-- Retrain request for the existing document with force. -/
def c6ReqForce : RetrainRequest :=
  ⟨"http://x/p.pdf".toList, "doc-1", "Policy".toList, "policy".toList, true⟩

/-- Retrain request for a fresh document id. -/
def c6ReqNew : RetrainRequest :=
  ⟨"http://x/p.pdf".toList, "doc-9", "Policy".toList, "policy".toList, false⟩

/-- Claim C6, evaluated: the conflict branch behaves as claimed (409,
existing version untouched), but the forced re-ingestion crashes —
`version` is loaded from a `String(20)` column, so `version += 1` is
`str + int` and raises `TypeError`, surfaced as the generic ingestion
500 with the stored version unchanged — and the create branch also
fails, because the handler never supplies the NOT NULL columns
`content`, `category`, `source_hash` and `effective_date`, so the
insert commit raises `IntegrityError`, surfaced as a 500 with no record
created. -/
theorem C6_retrain_versioning_evaluated :
    trigger_model_retrain 0 (.ok ()) c6ReqNoForce c6State =
      (.error (.http 409
        ("Document already exists. Use force_reindex=true to reindex.".toList)), c6State) ∧
    trigger_model_retrain 0 (.ok ()) c6ReqForce c6State =
      (.error (.http 500 (("Document ingestion failed: ".toList) ++
        ("TypeError: can only concatenate str (not \"int\") to str".toList))), c6State) ∧
    trigger_model_retrain 0 (.ok ()) c6ReqNew c6StateNoDoc =
      (.error (.http 500 (("Document ingestion failed: ".toList) ++
        ("IntegrityError: null value in not-null column".toList))), c6StateNoDoc) ∧
    c6Doc.version = .pyStr ['1'] :=
  ⟨rfl, rfl, rfl, rfl⟩

theorem get_or_create_user_feedbacks (now : Int) (st : DBState) (d : String) :
    ((get_or_create_user now st d).2).feedbacks = st.feedbacks := by
  unfold get_or_create_user
  rcases h : st.users.find? (fun u => u.discord_id == d) with _ | u <;> simp [h]

theorem process_query_feedbacks (hashFn : List Char → String)
    (llm : Except GrokError AskResult) (now : Int) (latencyMs : Nat)
    (redisCount : Nat) (redisTtl : Int) (req : QueryRequest) (st : DBState) :
    ((process_query hashFn llm now latencyMs redisCount redisTtl req st).2).feedbacks =
      st.feedbacks := by
  unfold process_query
  by_cases h1 : 30 < redisCount
  · rw [if_pos h1]
  · rw [if_neg h1]
    rcases hgo : get_or_create_user now st req.user_id with ⟨user, st1⟩
    have hst1 : st1.feedbacks = st.feedbacks := by
      have := get_or_create_user_feedbacks now st req.user_id
      rw [hgo] at this
      exact this
    simp only [hgo]
    by_cases h2 : user.daily_query_limit ≤ user.queries_today
    · rw [if_pos h2]; exact hst1
    · rw [if_neg h2]
      rcases hfd : st1.queryLogs.find? (isRecentDuplicate user.id (hashFn req.query) now)
        with _ | dup
      · simp only [hfd]
        rcases llm with e | result
        · exact hst1
        · exact hst1
      · simp only [hfd]
        exact hst1

theorem trigger_model_retrain_feedbacks (now : Int) (ingest : Except (List Char) Unit)
    (req : RetrainRequest) (st : DBState) :
    ((trigger_model_retrain now ingest req st).2).feedbacks = st.feedbacks := by
  unfold trigger_model_retrain
  repeat' split
  all_goals rfl

/-- Number of feedback rows for a query id in a bare list. -/
theorem gdpr_feedbacks_sublist (now : Int) (user_id confirm : String) (st : DBState) :
    List.Sublist ((gdpr_delete_user_data now user_id confirm st).2).feedbacks
      st.feedbacks := by
  unfold gdpr_delete_user_data
  repeat' split
  all_goals first
    | exact List.Sublist.refl _
    | exact List.filter_sublist _

theorem feedbackCount_le_of_sublist {l l' : List FeedbackRow} (qid : String)
    (h : List.Sublist l l') :
    (l.filter (fun f => f.query_id == qid)).length ≤
      (l'.filter (fun f => f.query_id == qid)).length :=
  (h.filter _).length_le

theorem length_filter_singleton (p : FeedbackRow → Bool) (x : FeedbackRow) :
    (([x]).filter p).length = if p x then 1 else 0 := by
  by_cases h : p x <;> simp [List.filter, h]

theorem mkFeedbackRow_query_id (now : Int) (req : FeedbackRequest)
    (qlog : QueryLogRow) (idStr : String) :
    (mkFeedbackRow now req qlog idStr).query_id = qlog.id := rfl

theorem submit_feedback_count (now : Int) (req : FeedbackRequest) (st : DBState)
    (qid : String) (hinv : feedbackCount st qid ≤ 1) :
    feedbackCount ((submit_feedback now req st).2) qid ≤ 1 := by
  unfold submit_feedback
  rcases hq : st.queryLogs.find? (fun q => q.id == req.query_id) with _ | qlog
  · simp only [hq]
    exact hinv
  · simp only [hq]
    rcases hf : st.feedbacks.find? (fun f => f.query_id == qlog.id) with _ | fb
    · simp only [hf]
      unfold feedbackCount at hinv ⊢
      simp only [List.filter_append, List.length_append, length_filter_singleton,
        mkFeedbackRow_query_id]
      by_cases hqq : (qlog.id == qid) = true
      · have hzero : st.feedbacks.filter (fun f => f.query_id == qid) = [] := by
          rw [List.filter_eq_nil_iff]
          intro a ha
          have := List.find?_eq_none.mp hf a ha
          simp only [beq_iff_eq] at this ⊢
          rw [beq_iff_eq] at hqq
          rw [hqq] at this
          exact this
        rw [hzero, if_pos hqq]
        simp
      · rw [if_neg hqq]
        omega
    · simp only [hf]
      exact hinv

theorem step_preserves_feedback_unique {st st' : DBState} (h : Step st st')
    (hinv : ∀ qid, feedbackCount st qid ≤ 1) :
    ∀ qid, feedbackCount st' qid ≤ 1 := by
  intro qid
  cases h with
  | query hashFn llm now latencyMs redisCount redisTtl req st =>
    unfold feedbackCount
    rw [process_query_feedbacks]
    exact hinv qid
  | feedback now req st =>
    exact submit_feedback_count now req st qid (hinv qid)
  | gdpr now user_id confirm st =>
    exact le_trans
      (feedbackCount_le_of_sublist qid (gdpr_feedbacks_sublist now user_id confirm st))
      (hinv qid)
  | retrain now ingest req st =>
    unfold feedbackCount
    rw [trigger_model_retrain_feedbacks]
    exact hinv qid

/-- Claim C4: (1) in every state reachable from the empty database
through the modelled operations, each QueryLog id has at most one
QueryFeedback row; (2) when a feedback row already exists for the given
query id (and the query exists), `submit_feedback` rejects with 409 and
leaves the state unchanged; (3) a first submission for an existing
query succeeds and the feedback row, carrying the submitted ratings, is
present (retrievable) in the resulting state. -/
theorem C4_feedback_uniqueness :
    (∀ st, Reachable st → ∀ qid, feedbackCount st qid ≤ 1) ∧
    (∀ (now : Int) (req : FeedbackRequest) (st : DBState),
      (∃ ql ∈ st.queryLogs, ql.id = req.query_id) →
      (∃ fb ∈ st.feedbacks, fb.query_id = req.query_id) →
      submit_feedback now req st =
        (.error (.http 409 ("Feedback already submitted".toList)), st)) ∧
    (∀ (now : Int) (req : FeedbackRequest) (st : DBState),
      (∃ ql ∈ st.queryLogs, ql.id = req.query_id) →
      (∀ fb ∈ st.feedbacks, fb.query_id ≠ req.query_id) →
      ∃ fb st', submit_feedback now req st = (.ok ("success", fb.id), st') ∧
        st'.feedbacks = st.feedbacks ++ [fb] ∧ fb.query_id = req.query_id ∧
        fb.overall_rating = req.overall_rating ∧
        fb.helpfulness_rating = req.helpfulness_rating ∧
        fb.accuracy_rating = req.accuracy_rating ∧ fb ∈ st'.feedbacks) := by
  refine ⟨?_, ?_, ?_⟩
  · intro st hr
    induction hr with
    | refl => intro qid; simp [feedbackCount, initState]
    | tail _ hstep ih => exact step_preserves_feedback_unique hstep ih
  · intro now req st hq hfb
    have hqs : (st.queryLogs.find? (fun q => q.id == req.query_id)).isSome := by
      rw [List.find?_isSome]
      obtain ⟨ql, hm, hid⟩ := hq
      exact ⟨ql, hm, by simp [hid]⟩
    obtain ⟨qlog, hqf⟩ := Option.isSome_iff_exists.mp hqs
    have hqid : qlog.id = req.query_id := by
      have := List.find?_some hqf
      simpa using this
    have hfs : (st.feedbacks.find? (fun f => f.query_id == qlog.id)).isSome := by
      rw [List.find?_isSome]
      obtain ⟨fb, hm, hid⟩ := hfb
      exact ⟨fb, hm, by simp [hid, hqid]⟩
    obtain ⟨fb0, hff⟩ := Option.isSome_iff_exists.mp hfs
    unfold submit_feedback
    rw [hqf]
    simp only [hff]
  · intro now req st hq hnofb
    have hqs : (st.queryLogs.find? (fun q => q.id == req.query_id)).isSome := by
      rw [List.find?_isSome]
      obtain ⟨ql, hm, hid⟩ := hq
      exact ⟨ql, hm, by simp [hid]⟩
    obtain ⟨qlog, hqf⟩ := Option.isSome_iff_exists.mp hqs
    have hqid : qlog.id = req.query_id := by
      have := List.find?_some hqf
      simpa using this
    have hff : st.feedbacks.find? (fun f => f.query_id == qlog.id) = none := by
      rw [List.find?_eq_none]
      intro fb hm
      simp only [beq_iff_eq, hqid]
      exact hnofb fb hm
    have heq : submit_feedback now req st =
        (.ok ("success", (mkFeedbackRow now req qlog (freshId st.nextIdNum)).id),
          { st with
            feedbacks := st.feedbacks ++ [mkFeedbackRow now req qlog (freshId st.nextIdNum)]
            nextIdNum := st.nextIdNum + 1 }) := by
      unfold submit_feedback
      rw [hqf]
      simp only [hff]
    exact ⟨mkFeedbackRow now req qlog (freshId st.nextIdNum), _, heq, rfl,
      (mkFeedbackRow_query_id now req qlog (freshId st.nextIdNum)).trans hqid,
      rfl, rfl, rfl, List.mem_append_right _ (List.mem_singleton.mpr rfl)⟩

/-- Fixture state for the C4 witness's first-submission branch:
the query exists, no feedback yet. -/
def c4StateNoFb : DBState :=
  { users := [wUserFree], queryLogs := [wLogRecent], feedbacks := []
    documents := [], auditEventTypes := [], nextIdNum := 11 }

/-- Fixture state for the C4 witness's conflict branch. -/
def c4StateFb : DBState :=
  { c4StateNoFb with feedbacks := [wFeedback] }

/-- Fixture feedback request for query Q1. -/
def c4Req : FeedbackRequest := ⟨"Q1", 5, 4, 3, none, false, false⟩

/-- Claim C4, witness: the invariant holds in the empty database
(reachable by zero steps); the 409 branch fires on a state that already
holds feedback for Q1; a first submission on the feedback-free state
succeeds with the submitted ratings retrievable. -/
theorem C4_feedback_uniqueness_witness :
    (feedbackCount initState "Q1" ≤ 1) ∧
    (submit_feedback 0 c4Req c4StateFb =
      (.error (.http 409 ("Feedback already submitted".toList)), c4StateFb)) ∧
    (∃ fb st', submit_feedback 0 c4Req c4StateNoFb = (.ok ("success", fb.id), st') ∧
      st'.feedbacks = c4StateNoFb.feedbacks ++ [fb] ∧ fb.query_id = c4Req.query_id ∧
      fb.overall_rating = c4Req.overall_rating ∧
      fb.helpfulness_rating = c4Req.helpfulness_rating ∧
      fb.accuracy_rating = c4Req.accuracy_rating ∧ fb ∈ st'.feedbacks) :=
  ⟨C4_feedback_uniqueness.1 initState Relation.ReflTransGen.refl "Q1",
    C4_feedback_uniqueness.2.1 0 c4Req c4StateFb
      ⟨wLogRecent, List.mem_singleton.mpr rfl, rfl⟩
      ⟨wFeedback, List.mem_singleton.mpr rfl, rfl⟩,
    C4_feedback_uniqueness.2.2 0 c4Req c4StateNoFb
      ⟨wLogRecent, List.mem_singleton.mpr rfl, rfl⟩
      (by intro fb hm; cases hm)⟩

/-- Claim C10: when the parsed JSON lacks a `confidence` field the
service substitutes 0.5 (`data.get("confidence", 0.5)`), which labels
as `low` (0.5 < 0.6); and a QueryLog persisted for any result with
confidence score 0.5 is not auto-flagged, because the flag condition is
the strict `confidence_score < 0.5`. -/
theorem C10_default_confidence_unflagged :
    (∀ (k : List Char) (chunks : List RagChunk) (content : List Char)
        (jparse : List Char → Option GrokJson) (data : GrokJson),
      jparse content = some data → data.confidence = none →
      ask_compliance (some k) (.ok chunks) (.ok content) jparse =
        .ok (mkAskResult data chunks) ∧
      (mkAskResult data chunks).confidence_score = 0.5 ∧
      (mkAskResult data chunks).confidence = "low") ∧
    (∀ (hashFn : List Char → String) (result : AskResult) (now : Int) (latencyMs : Nat)
        (redisCount : Nat) (redisTtl : Int) (req : QueryRequest) (st : DBState)
        (user : UserRow),
      result.confidence_score = 0.5 →
      redisCount ≤ 30 →
      st.users.find? (fun u => u.discord_id == req.user_id) = some user →
      user.queries_today < user.daily_query_limit →
      st.queryLogs.find? (isRecentDuplicate user.id (hashFn req.query) now) = none →
      ((process_query hashFn (.ok result) now latencyMs redisCount redisTtl req st).2).queryLogs =
        st.queryLogs ++ [mkQueryLogRow now latencyMs req user (hashFn req.query) result
          (freshId st.nextIdNum)] ∧
      (mkQueryLogRow now latencyMs req user (hashFn req.query) result
        (freshId st.nextIdNum)).is_flagged = false) := by
  constructor
  · intro k chunks content jparse data hp hc
    refine ⟨by simp only [ask_compliance, hp], ?_, ?_⟩
    · show data.confidence.getD 0.5 = 0.5
      rw [hc]
      rfl
    · show confidence_level_service (data.confidence.getD 0.5) = "low"
      rw [hc]
      show confidence_level_service 0.5 = "low"
      unfold confidence_level_service
      rw [if_neg (by norm_num), if_neg (by norm_num)]
  · intro hashFn result now latencyMs redisCount redisTtl req st user hscore hrc hfind
      hlim hnodup
    constructor
    · unfold process_query
      rw [if_neg (by omega : ¬ 30 < redisCount)]
      simp only [get_or_create_user_found hfind]
      rw [if_neg (by omega : ¬ user.daily_query_limit ≤ user.queries_today)]
      simp only [hnodup]
    · show decide (result.confidence_score < 0.5) = false
      rw [hscore]
      exact decide_eq_false (by norm_num)

/-- Fixture parsed JSON lacking the confidence field. -/
def c10Data : GrokJson := ⟨some ("yes".toList), none, some ("low".toList)⟩

/-- Fixture parser returning `c10Data` for every body. -/
def c10Parse : List Char → Option GrokJson := fun _ => some c10Data

/-- Fixture LLM result carrying the substituted score 0.5. -/
def c10Result : AskResult :=
  { answer := "fresh".toList, confidence := "low", confidence_score := 0.5
    risk := "low".toList, sources := [], model_used := "grok-4-latest" }

/-- Claim C10, witness: a reply without a confidence field yields score
0.5 labelled low, and persisting a 0.5-score result on `wStateDup`
(fresh hash, under the limits) appends an unflagged QueryLog. -/
theorem C10_default_confidence_unflagged_witness :
    (ask_compliance (some ("key".toList)) (.ok []) (.ok ("c".toList)) c10Parse =
        .ok (mkAskResult c10Data []) ∧
      (mkAskResult c10Data []).confidence_score = 0.5 ∧
      (mkAskResult c10Data []).confidence = "low") ∧
    (((process_query (fun _ => "H2") (.ok c10Result) 2000000 5 1 30
        ⟨"what is rule y".toList, "d1", none⟩ wStateDup).2).queryLogs =
      wStateDup.queryLogs ++ [mkQueryLogRow 2000000 5 ⟨"what is rule y".toList, "d1", none⟩
        wUserFree ((fun _ => "H2") ("what is rule y".toList)) c10Result
        (freshId wStateDup.nextIdNum)] ∧
      (mkQueryLogRow 2000000 5 ⟨"what is rule y".toList, "d1", none⟩ wUserFree
        ((fun _ => "H2") ("what is rule y".toList)) c10Result
        (freshId wStateDup.nextIdNum)).is_flagged = false) :=
  ⟨C10_default_confidence_unflagged.1 ("key".toList) [] ("c".toList) c10Parse c10Data
      rfl rfl,
    C10_default_confidence_unflagged.2 (fun _ => "H2") c10Result 2000000 5 1 30
      ⟨"what is rule y".toList, "d1", none⟩ wStateDup wUserFree rfl (by omega)
      (by decide) (by decide) (by decide)⟩

/-! ### Reciprocal Rank Fusion (src/heroku-api/app/rag/retriever.py)

`_reciprocal_rank_fusion` builds an insertion-ordered dict keyed by
`document_id + str(chunk_index)`: each result at 1-indexed rank r in a
list with weight w contributes `w * (1.0 / (k + r))` to its key's
running score (the first occurrence's payload is kept), then the values
are sorted by score descending (Python's stable sort) and the score
field is replaced by the fused score.  Scores are `ℚ`, modelling the
float arithmetic exactly. -/

/-- One ranked search result as consumed by the fusion. -/
structure RRFItem where
  document_id : String
  chunk_index : Nat
  text : List Char
  score : ℚ
deriving DecidableEq

/-- The dict key: `result.get("document_id", "") + str(result.get("chunk_index", 0))`. -/
def rrfKey (r : RRFItem) : String := r.document_id ++ toString r.chunk_index

/-- One entry of `doc_map`: key, first-occurrence payload, running score. -/
structure RRFEntry where
  key : String
  item : RRFItem
  rrf_score : ℚ
deriving DecidableEq

/-- Dict lookup (first entry with the key; keys are unique by
construction). -/
def lookupRRF (m : List RRFEntry) (k : String) : Option RRFEntry :=
  m.find? (fun e => e.key == k)

/-- Python `doc_id in doc_map`. -/
def containsRRF (m : List RRFEntry) (k : String) : Bool := (lookupRRF m k).isSome

/-- The running score of a key (0 when absent). -/
def getScore (m : List RRFEntry) (k : String) : ℚ :=
  match lookupRRF m k with
  | some e => e.rrf_score
  | none => 0

/-- `doc_map[doc_id]["rrf_score"] += rrf_score` on the (unique) entry. -/
def updateFirstRRF (δ : ℚ) (k : String) : List RRFEntry → List RRFEntry
  | [] => []
  | e :: rest =>
    if e.key == k then { e with rrf_score := e.rrf_score + δ } :: rest
    else e :: updateFirstRRF δ k rest

/-- One iteration of the `for rank, result in enumerate(results, 1)`
loop: insert the key with score 0 if absent, then add
`weight * (1.0 / (k + rank))`. -/
def rrfStep (w kconst : ℚ) (m : List RRFEntry) (r : RRFItem) (rank : Nat) :
    List RRFEntry :=
  updateFirstRRF (w * (1 / (kconst + (rank : ℚ)))) (rrfKey r)
    (if containsRRF m (rrfKey r) then m else m ++ [⟨rrfKey r, r, 0⟩])

/-- The whole loop over one ranked list, ranks starting at `rank`. -/
def addRanked (w kconst : ℚ) : List RRFItem → Nat → List RRFEntry → List RRFEntry
  | [], _, m => m
  | r :: rs, rank, m => addRanked w kconst rs (rank + 1) (rrfStep w kconst m r rank)

/-- `doc_map` after both loops. -/
def rrfMap (A B : List RRFItem) (wa wb kconst : ℚ) : List RRFEntry :=
  addRanked wb kconst B 1 (addRanked wa kconst A 1 [])

/-- Stable descending insertion (the behaviour of Python's stable
`sorted(..., key=rrf_score, reverse=True)`). -/
def insertDesc (x : RRFItem × ℚ) : List (RRFItem × ℚ) → List (RRFItem × ℚ)
  | [] => [x]
  | y :: ys => if y.2 ≤ x.2 then x :: y :: ys else y :: insertDesc x ys

/-- Stable descending sort by score. -/
def sortDesc : List (RRFItem × ℚ) → List (RRFItem × ℚ)
  | [] => []
  | x :: xs => insertDesc x (sortDesc xs)

/-- `_reciprocal_rank_fusion`: fuse, sort descending, replace `score`
with the fused score. -/
def reciprocal_rank_fusion (A B : List RRFItem) (wa wb kconst : ℚ) :
    List RRFItem :=
  (sortDesc ((rrfMap A B wa wb kconst).map (fun e => (e.item, e.rrf_score)))).map
    (fun p => { p.1 with score := p.2 })

/-- Specified fused contribution of one list to one key: the sum over
occurrences of the key of `w * (1 / (k + rank))`. -/
def rrfContrib (w kconst : ℚ) : List RRFItem → Nat → String → ℚ
  | [], _, _ => 0
  | r :: rs, rank, key =>
    (if rrfKey r == key then w * (1 / (kconst + (rank : ℚ))) else 0) +
      rrfContrib w kconst rs (rank + 1) key

theorem updateFirstRRF_keys (δ : ℚ) (k : String) (m : List RRFEntry) :
    (updateFirstRRF δ k m).map (fun e => e.key) = m.map (fun e => e.key) := by
  induction m with
  | nil => rfl
  | cons e rest ih =>
    unfold updateFirstRRF
    by_cases h : (e.key == k) = true
    · rw [if_pos h]
      rfl
    · rw [if_neg h]
      simp only [List.map_cons, ih]

theorem containsRRF_iff_mem (m : List RRFEntry) (k : String) :
    containsRRF m k = true ↔ k ∈ m.map (fun e => e.key) := by
  unfold containsRRF lookupRRF
  rw [Option.isSome_iff_exists]
  constructor
  · rintro ⟨e, he⟩
    have hk := List.find?_some he
    rw [beq_iff_eq] at hk
    exact hk ▸ List.mem_map_of_mem _ (List.mem_of_find?_eq_some he)
  · intro hk
    obtain ⟨e, hem, hek⟩ := List.mem_map.mp hk
    have : (m.find? (fun e => e.key == k)).isSome := by
      rw [List.find?_isSome]
      exact ⟨e, hem, by simp [hek]⟩
    exact Option.isSome_iff_exists.mp this

theorem lookupRRF_cons (e : RRFEntry) (rest : List RRFEntry) (k : String) :
    lookupRRF (e :: rest) k = if e.key == k then some e else lookupRRF rest k := by
  unfold lookupRRF
  rw [List.find?_cons]
  cases h : (e.key == k) <;> simp [h]

theorem getScore_nil (key : String) : getScore [] key = 0 := rfl

theorem getScore_cons (e : RRFEntry) (rest : List RRFEntry) (key : String) :
    getScore (e :: rest) key =
      if e.key == key then e.rrf_score else getScore rest key := by
  unfold getScore
  rw [lookupRRF_cons]
  cases h : (e.key == key) <;> simp [h]

theorem containsRRF_cons (e : RRFEntry) (rest : List RRFEntry) (k : String) :
    containsRRF (e :: rest) k = (e.key == k || containsRRF rest k) := by
  unfold containsRRF
  rw [lookupRRF_cons]
  cases h : (e.key == k) <;> simp [h]

theorem getScore_append_zero (m : List RRFEntry) (k' : String) (r : RRFItem)
    (key : String) : getScore (m ++ [⟨k', r, 0⟩]) key = getScore m key := by
  induction m with
  | nil =>
    rw [List.nil_append, getScore_cons, getScore_nil]
    cases h : ((⟨k', r, 0⟩ : RRFEntry).key == key) <;> simp [h]
  | cons e rest ih =>
    rw [List.cons_append, getScore_cons, getScore_cons, ih]

theorem containsRRF_append_self (m : List RRFEntry) (k : String) (r : RRFItem) :
    containsRRF (m ++ [⟨k, r, 0⟩]) k = true := by
  rw [containsRRF_iff_mem]
  simp

theorem getScore_updateFirst (δ : ℚ) (k key : String) (m : List RRFEntry) :
    getScore (updateFirstRRF δ k m) key =
      getScore m key + (if k = key ∧ containsRRF m k = true then δ else 0) := by
  induction m with
  | nil =>
    simp [updateFirstRRF, getScore_nil, containsRRF, lookupRRF]
  | cons e rest ih =>
    rw [containsRRF_cons]
    by_cases he : (e.key == k) = true
    · unfold updateFirstRRF
      rw [if_pos he, getScore_cons, getScore_cons]
      by_cases hk : k = key
      · have hek : (e.key == key) = true := by
          rw [beq_iff_eq] at he ⊢
          rw [he, hk]
        rw [if_pos hek]
        have hek' : (({ e with rrf_score := e.rrf_score + δ } : RRFEntry).key == key) = true :=
          hek
        rw [if_pos hek', if_pos ⟨hk, by simp [he]⟩]
      · have hek : (e.key == key) = false := by
          rw [beq_iff_eq] at he
          simp only [beq_eq_false_iff_ne, ne_eq, he]
          exact hk
        rw [hek]
        simp only [Bool.false_eq_true, if_false]
        rw [if_neg (fun hc => hk hc.1)]
        ring
    · unfold updateFirstRRF
      rw [if_neg he, getScore_cons, getScore_cons, ih]
      have hbe : (e.key == k) = false := by
        cases hb : (e.key == k)
        · rfl
        · exact absurd hb he
      rw [hbe]
      by_cases hek : (e.key == key) = true
      · have hnk : ¬ (k = key ∧ (false || containsRRF rest k) = true) := by
          rintro ⟨hk, _⟩
          rw [beq_iff_eq] at hek
          exact he (by rw [beq_iff_eq, hek, hk])
        rw [if_pos hek, if_pos hek, if_neg hnk]
        ring
      · have hek' : (e.key == key) = false := by
          cases hb : (e.key == key)
          · rfl
          · exact absurd hb hek
        rw [hek']
        simp only [Bool.false_eq_true, if_false, Bool.false_or]

theorem getScore_rrfStep (w kconst : ℚ) (m : List RRFEntry) (r : RRFItem)
    (rank : Nat) (key : String) :
    getScore (rrfStep w kconst m r rank) key =
      getScore m key +
        (if rrfKey r = key then w * (1 / (kconst + (rank : ℚ))) else 0) := by
  unfold rrfStep
  rw [getScore_updateFirst]
  by_cases hc : containsRRF m (rrfKey r) = true
  · rw [if_pos hc]
    by_cases hk : rrfKey r = key
    · rw [if_pos ⟨hk, hc⟩, if_pos hk]
    · rw [if_neg (fun h => hk h.1), if_neg hk]
  · rw [if_neg hc]
    rw [getScore_append_zero]
    by_cases hk : rrfKey r = key
    · rw [if_pos ⟨hk, containsRRF_append_self m (rrfKey r) r⟩, if_pos hk]
    · rw [if_neg (fun h => hk h.1), if_neg hk]

theorem getScore_addRanked (w kconst : ℚ) (L : List RRFItem) :
    ∀ (rank : Nat) (m : List RRFEntry) (key : String),
      getScore (addRanked w kconst L rank m) key =
        getScore m key + rrfContrib w kconst L rank key := by
  induction L with
  | nil =>
    intro rank m key
    unfold addRanked rrfContrib
    ring
  | cons r rs ih =>
    intro rank m key
    unfold addRanked rrfContrib
    rw [ih, getScore_rrfStep]
    by_cases hk : rrfKey r = key
    · rw [if_pos hk, if_pos (beq_iff_eq.mpr hk)]
      ring
    · rw [if_neg hk, if_neg (by simpa using hk)]
      ring

/-- Final accumulated score of every key: the sum of both lists'
contributions (`getScore [] key = 0`). -/
theorem getScore_rrfMap (A B : List RRFItem) (wa wb kconst : ℚ) (key : String) :
    getScore (rrfMap A B wa wb kconst) key =
      rrfContrib wa kconst A 1 key + rrfContrib wb kconst B 1 key := by
  unfold rrfMap
  rw [getScore_addRanked, getScore_addRanked, getScore_nil]
  ring

theorem rrfContrib_eq_zero_of_notMem (w kconst : ℚ) (L : List RRFItem)
    (rank : Nat) (key : String) (h : key ∉ L.map rrfKey) :
    rrfContrib w kconst L rank key = 0 := by
  induction L generalizing rank with
  | nil => rfl
  | cons r rs ih =>
    unfold rrfContrib
    have h1 : rrfKey r ≠ key := by
      intro he
      exact h (he ▸ List.mem_map_of_mem _ (List.mem_cons_self _ _))
    rw [if_neg (by simpa using h1), ih _ (fun hm => h (List.mem_cons_of_mem _ hm))]
    ring

theorem rrfContrib_of_get (w kconst : ℚ) (L : List RRFItem) :
    ∀ (i rank : Nat) (x : RRFItem), (L.map rrfKey).Nodup → L.get? i = some x →
      rrfContrib w kconst L rank (rrfKey x) =
        w * (1 / (kconst + ((rank : ℚ) + (i : ℚ)))) := by
  induction L with
  | nil =>
    intro i rank x _ h
    simp at h
  | cons r rs ih =>
    intro i rank x hnd h
    have hnd' := hnd
    rw [List.map_cons, List.nodup_cons] at hnd'
    cases i with
    | zero =>
      rw [List.get?_cons_zero] at h
      have hx : r = x := by injection h
      subst hx
      unfold rrfContrib
      rw [if_pos (beq_iff_eq.mpr rfl)]
      rw [rrfContrib_eq_zero_of_notMem _ _ _ _ _ hnd'.1]
      push_cast
      ring_nf
    | succ j =>
      rw [List.get?_cons_succ] at h
      have hxmem : rrfKey x ∈ rs.map rrfKey :=
        List.mem_map_of_mem _ (List.get?_mem h)
      have hne : rrfKey r ≠ rrfKey x := fun he => hnd'.1 (he ▸ hxmem)
      unfold rrfContrib
      rw [if_neg (by simpa using hne), ih j (rank + 1) x hnd'.2 h]
      push_cast
      ring_nf

theorem rrfStep_keys (w kconst : ℚ) (m : List RRFEntry) (r : RRFItem) (rank : Nat) :
    (rrfStep w kconst m r rank).map (fun e => e.key) =
      if containsRRF m (rrfKey r) then m.map (fun e => e.key)
      else m.map (fun e => e.key) ++ [rrfKey r] := by
  unfold rrfStep
  rw [updateFirstRRF_keys]
  by_cases hc : containsRRF m (rrfKey r) = true
  · simp [hc]
  · simp only [Bool.not_eq_true] at hc
    simp [hc]

theorem rrfStep_keys_nodup (w kconst : ℚ) (m : List RRFEntry) (r : RRFItem)
    (rank : Nat) (h : (m.map (fun e => e.key)).Nodup) :
    ((rrfStep w kconst m r rank).map (fun e => e.key)).Nodup := by
  rw [rrfStep_keys]
  by_cases hc : containsRRF m (rrfKey r) = true
  · rw [if_pos hc]
    exact h
  · rw [if_neg hc]
    refine h.append (List.nodup_singleton _) ?_
    intro a ha hb
    rw [List.mem_singleton] at hb
    subst hb
    rw [containsRRF_iff_mem] at hc
    exact hc ha

theorem addRanked_keys_nodup (w kconst : ℚ) (L : List RRFItem) :
    ∀ (rank : Nat) (m : List RRFEntry), (m.map (fun e => e.key)).Nodup →
      ((addRanked w kconst L rank m).map (fun e => e.key)).Nodup := by
  induction L with
  | nil => intro rank m h; exact h
  | cons r rs ih =>
    intro rank m h
    exact ih _ _ (rrfStep_keys_nodup w kconst m r rank h)

theorem rrfMap_keys_nodup (A B : List RRFItem) (wa wb kconst : ℚ) :
    ((rrfMap A B wa wb kconst).map (fun e => e.key)).Nodup :=
  addRanked_keys_nodup wb kconst B 1 _
    (addRanked_keys_nodup wa kconst A 1 [] (by simp))

/-- Every stored entry's key is the key of its stored item. -/
def entriesWF (m : List RRFEntry) : Prop := ∀ e ∈ m, rrfKey e.item = e.key

theorem updateFirstRRF_entriesWF (δ : ℚ) (k : String) (m : List RRFEntry)
    (h : entriesWF m) : entriesWF (updateFirstRRF δ k m) := by
  induction m with
  | nil => exact h
  | cons e rest ih =>
    unfold updateFirstRRF
    by_cases he : (e.key == k) = true
    · rw [if_pos he]
      intro f hf
      rcases List.mem_cons.mp hf with h' | h'
      · subst h'
        exact h e (List.mem_cons_self _ _)
      · exact h f (List.mem_cons_of_mem _ h')
    · rw [if_neg he]
      intro f hf
      rcases List.mem_cons.mp hf with h' | h'
      · subst h'
        exact h f (List.mem_cons_self _ _)
      · exact ih (fun g hg => h g (List.mem_cons_of_mem _ hg)) f h'

theorem rrfStep_entriesWF (w kconst : ℚ) (m : List RRFEntry) (r : RRFItem)
    (rank : Nat) (h : entriesWF m) : entriesWF (rrfStep w kconst m r rank) := by
  unfold rrfStep
  apply updateFirstRRF_entriesWF
  by_cases hc : containsRRF m (rrfKey r) = true
  · rw [if_pos hc]
    exact h
  · rw [if_neg hc]
    intro e he
    rcases List.mem_append.mp he with h' | h'
    · exact h e h'
    · rw [List.mem_singleton] at h'
      subst h'
      rfl

theorem addRanked_entriesWF (w kconst : ℚ) (L : List RRFItem) :
    ∀ (rank : Nat) (m : List RRFEntry), entriesWF m →
      entriesWF (addRanked w kconst L rank m) := by
  induction L with
  | nil => intro rank m h; exact h
  | cons r rs ih =>
    intro rank m h
    exact ih _ _ (rrfStep_entriesWF w kconst m r rank h)

theorem rrfMap_entriesWF (A B : List RRFItem) (wa wb kconst : ℚ) :
    entriesWF (rrfMap A B wa wb kconst) :=
  addRanked_entriesWF wb kconst B 1 _
    (addRanked_entriesWF wa kconst A 1 [] (fun e he => absurd he (List.not_mem_nil e)))

theorem lookupRRF_of_mem_nodup {m : List RRFEntry} {e : RRFEntry}
    (hnd : (m.map (fun e => e.key)).Nodup) (hm : e ∈ m) :
    lookupRRF m e.key = some e := by
  induction m with
  | nil => cases hm
  | cons f rest ih =>
    rw [List.map_cons, List.nodup_cons] at hnd
    rcases List.mem_cons.mp hm with h' | h'
    · subst h'
      rw [lookupRRF_cons, if_pos (beq_iff_eq.mpr rfl)]
    · have hne : (f.key == e.key) = false := by
        simp only [beq_eq_false_iff_ne, ne_eq]
        intro hk
        exact hnd.1 (hk ▸ List.mem_map_of_mem _ h')
      rw [lookupRRF_cons, hne]
      simp only [Bool.false_eq_true, if_false]
      exact ih hnd.2 h'

theorem getScore_of_mem_nodup {m : List RRFEntry} {e : RRFEntry}
    (hnd : (m.map (fun e => e.key)).Nodup) (hm : e ∈ m) :
    getScore m e.key = e.rrf_score := by
  unfold getScore
  rw [lookupRRF_of_mem_nodup hnd hm]

theorem insertDesc_perm (x : RRFItem × ℚ) (l : List (RRFItem × ℚ)) :
    (insertDesc x l).Perm (x :: l) := by
  induction l with
  | nil => exact List.Perm.refl _
  | cons y ys ih =>
    unfold insertDesc
    by_cases h : y.2 ≤ x.2
    · rw [if_pos h]
    · rw [if_neg h]
      exact (ih.cons y).trans (List.Perm.swap x y ys)

theorem sortDesc_perm (l : List (RRFItem × ℚ)) : (sortDesc l).Perm l := by
  induction l with
  | nil => exact List.Perm.refl _
  | cons x xs ih =>
    exact (insertDesc_perm x (sortDesc xs)).trans (ih.cons x)

theorem insertDesc_pairwise {x : RRFItem × ℚ} {l : List (RRFItem × ℚ)}
    (h : l.Pairwise (fun p q => q.2 ≤ p.2)) :
    (insertDesc x l).Pairwise (fun p q => q.2 ≤ p.2) := by
  induction l with
  | nil => exact List.pairwise_singleton _ _
  | cons y ys ih =>
    have h' := h
    rw [List.pairwise_cons] at h'
    unfold insertDesc
    by_cases hxy : y.2 ≤ x.2
    · rw [if_pos hxy]
      rw [List.pairwise_cons]
      refine ⟨?_, h⟩
      intro z hz
      rcases List.mem_cons.mp hz with h1 | h1
      · subst h1; exact hxy
      · exact (h'.1 z h1).trans hxy
    · rw [if_neg hxy]
      rw [List.pairwise_cons]
      refine ⟨?_, ih h'.2⟩
      intro z hz
      rcases List.mem_cons.mp ((insertDesc_perm x ys).mem_iff.mp hz) with h1 | h1
      · subst h1
        exact le_of_lt (not_le.mp hxy)
      · exact h'.1 z h1

theorem sortDesc_pairwise (l : List (RRFItem × ℚ)) :
    (sortDesc l).Pairwise (fun p q => q.2 ≤ p.2) := by
  induction l with
  | nil => exact List.Pairwise.nil
  | cons x xs ih => exact insertDesc_pairwise ih

/-- Every element of the fused output carries the accumulated score of
its own key. -/
theorem fused_score_eq (A B : List RRFItem) (wa wb kconst : ℚ) {n : Nat}
    {u : RRFItem} (h : (reciprocal_rank_fusion A B wa wb kconst).get? n = some u) :
    u.score = getScore (rrfMap A B wa wb kconst) (rrfKey u) := by
  unfold reciprocal_rank_fusion at h
  rw [List.get?_map] at h
  rcases hp : (sortDesc ((rrfMap A B wa wb kconst).map
      (fun e => (e.item, e.rrf_score)))).get? n with _ | p
  · rw [hp] at h; cases h
  · rw [hp] at h
    have hu : u = { p.1 with score := p.2 } := by
      simpa using h.symm
    have hpm : p ∈ sortDesc ((rrfMap A B wa wb kconst).map
        (fun e => (e.item, e.rrf_score))) := List.get?_mem hp
    have hpm2 : p ∈ (rrfMap A B wa wb kconst).map (fun e => (e.item, e.rrf_score)) :=
      (sortDesc_perm _).mem_iff.mp hpm
    obtain ⟨e, hem, hpe⟩ := List.mem_map.mp hpm2
    have hkey : rrfKey u = e.key := by
      rw [hu]
      have h1 : rrfKey { p.1 with score := p.2 } = rrfKey p.1 := rfl
      rw [h1, ← hpe]
      exact rrfMap_entriesWF A B wa wb kconst e hem
    have hscore : u.score = e.rrf_score := by
      rw [hu, ← hpe]
    rw [hscore, hkey]
    exact (getScore_of_mem_nodup (rrfMap_keys_nodup A B wa wb kconst) hem).symm

/-- The fused output is sorted by score descending. -/
theorem fused_pairwise (A B : List RRFItem) (wa wb kconst : ℚ) :
    (reciprocal_rank_fusion A B wa wb kconst).Pairwise
      (fun a b => b.score ≤ a.score) := by
  unfold reciprocal_rank_fusion
  rw [List.pairwise_map]
  exact (sortDesc_pairwise _).imp (fun h => h)

/-- Claim C9: (1) the fused score of every `document_id + chunk_index`
key is the sum over its occurrences (in both lists, so shared results
accumulate both contributions) of `weight * (1 / (k + rank))` with
1-indexed ranks; (2) with k = 60 and positive weights, two items
occupying the same ranks i < j in both input lists never have their
relative order inverted in the fused output (positions measured by the
index of their key in the output). -/
theorem C9_reciprocal_rank_fusion :
    (∀ (A B : List RRFItem) (wa wb kconst : ℚ) (key : String),
      getScore (rrfMap A B wa wb kconst) key =
        rrfContrib wa kconst A 1 key + rrfContrib wb kconst B 1 key) ∧
    (∀ (A B : List RRFItem) (wa wb : ℚ), 0 < wa → 0 < wb →
      (A.map rrfKey).Nodup → (B.map rrfKey).Nodup →
      ∀ (i j : Nat) (x y : RRFItem),
        A.get? i = some x → B.get? i = some x →
        A.get? j = some y → B.get? j = some y → i < j →
        ((reciprocal_rank_fusion A B wa wb 60).map rrfKey).indexOf (rrfKey x) <
          ((reciprocal_rank_fusion A B wa wb 60).map rrfKey).indexOf (rrfKey y)) := by
  refine ⟨getScore_rrfMap, ?_⟩
  intro A B wa wb hwa hwb hA hB i j x y hAi hBi hAj hBj hij
  have hsx : getScore (rrfMap A B wa wb 60) (rrfKey x) =
      (wa + wb) * (1 / (60 + ((1 : ℚ) + (i : ℚ)))) := by
    rw [getScore_rrfMap, rrfContrib_of_get wa 60 A i 1 x hA hAi,
      rrfContrib_of_get wb 60 B i 1 x hB hBi]
    push_cast
    ring
  have hsy : getScore (rrfMap A B wa wb 60) (rrfKey y) =
      (wa + wb) * (1 / (60 + ((1 : ℚ) + (j : ℚ)))) := by
    rw [getScore_rrfMap, rrfContrib_of_get wa 60 A j 1 y hA hAj,
      rrfContrib_of_get wb 60 B j 1 y hB hBj]
    push_cast
    ring
  have hdi : (0 : ℚ) < 60 + ((1 : ℚ) + (i : ℚ)) := by positivity
  have hij' : (60 + ((1 : ℚ) + (i : ℚ))) < 60 + ((1 : ℚ) + (j : ℚ)) := by
    have hq : (i : ℚ) < (j : ℚ) := by exact_mod_cast hij
    linarith
  have hwab : (0 : ℚ) < wa + wb := by linarith
  have hslt : getScore (rrfMap A B wa wb 60) (rrfKey y) <
      getScore (rrfMap A B wa wb 60) (rrfKey x) := by
    rw [hsx, hsy]
    exact mul_lt_mul_of_pos_left (one_div_lt_one_div_of_lt hdi hij') hwab
  have hsxpos : 0 < getScore (rrfMap A B wa wb 60) (rrfKey x) := by
    rw [hsx]
    have : (0 : ℚ) < 1 / (60 + ((1 : ℚ) + (i : ℚ))) := by positivity
    exact mul_pos hwab this
  have hsypos : 0 < getScore (rrfMap A B wa wb 60) (rrfKey y) := by
    rw [hsy]
    have hdj : (0 : ℚ) < 60 + ((1 : ℚ) + (j : ℚ)) := by positivity
    have : (0 : ℚ) < 1 / (60 + ((1 : ℚ) + (j : ℚ))) := by positivity
    exact mul_pos hwab this
  have hmemkey : ∀ key : String, getScore (rrfMap A B wa wb 60) key ≠ 0 →
      key ∈ (reciprocal_rank_fusion A B wa wb 60).map rrfKey := by
    intro key hne
    rcases hlk : lookupRRF (rrfMap A B wa wb 60) key with _ | e
    · exfalso
      apply hne
      unfold getScore
      rw [hlk]
    · have hem : e ∈ rrfMap A B wa wb 60 := List.mem_of_find?_eq_some hlk
      have hekey : e.key = key := by
        have := List.find?_some hlk
        rwa [beq_iff_eq] at this
      have hmemf : ({ e.item with score := e.rrf_score }) ∈
          reciprocal_rank_fusion A B wa wb 60 := by
        unfold reciprocal_rank_fusion
        exact List.mem_map_of_mem _
          ((sortDesc_perm _).mem_iff.mpr (List.mem_map_of_mem _ hem))
      have hrk : rrfKey { e.item with score := e.rrf_score } = key := by
        have h1 : rrfKey { e.item with score := e.rrf_score } = rrfKey e.item := rfl
        rw [h1, rrfMap_entriesWF A B wa wb 60 e hem, hekey]
      exact hrk ▸ List.mem_map_of_mem rrfKey hmemf
  have hmx := hmemkey _ (ne_of_gt hsxpos)
  have hmy := hmemkey _ (ne_of_gt hsypos)
  have h1 : ((reciprocal_rank_fusion A B wa wb 60).map rrfKey).indexOf (rrfKey x) <
      ((reciprocal_rank_fusion A B wa wb 60).map rrfKey).length :=
    List.indexOf_lt_length.mpr hmx
  have h2 : ((reciprocal_rank_fusion A B wa wb 60).map rrfKey).indexOf (rrfKey y) <
      ((reciprocal_rank_fusion A B wa wb 60).map rrfKey).length :=
    List.indexOf_lt_length.mpr hmy
  have h1' : ((reciprocal_rank_fusion A B wa wb 60).map rrfKey).indexOf (rrfKey x) <
      (reciprocal_rank_fusion A B wa wb 60).length := by
    rw [List.length_map] at h1
    exact h1
  have h2' : ((reciprocal_rank_fusion A B wa wb 60).map rrfKey).indexOf (rrfKey y) <
      (reciprocal_rank_fusion A B wa wb 60).length := by
    rw [List.length_map] at h2
    exact h2
  have hu : rrfKey ((reciprocal_rank_fusion A B wa wb 60).get ⟨_, h1'⟩) = rrfKey x := by
    have hg := List.indexOf_get h1
    rw [List.get_map] at hg
    exact hg
  have hv : rrfKey ((reciprocal_rank_fusion A B wa wb 60).get ⟨_, h2'⟩) = rrfKey y := by
    have hg := List.indexOf_get h2
    rw [List.get_map] at hg
    exact hg
  have hscoreu : ((reciprocal_rank_fusion A B wa wb 60).get ⟨_, h1'⟩).score =
      getScore (rrfMap A B wa wb 60) (rrfKey x) := by
    have := fused_score_eq A B wa wb 60 (List.get?_eq_get h1')
    rw [hu] at this
    exact this
  have hscorev : ((reciprocal_rank_fusion A B wa wb 60).get ⟨_, h2'⟩).score =
      getScore (rrfMap A B wa wb 60) (rrfKey y) := by
    have := fused_score_eq A B wa wb 60 (List.get?_eq_get h2')
    rw [hv] at this
    exact this
  rcases lt_trichotomy
    (((reciprocal_rank_fusion A B wa wb 60).map rrfKey).indexOf (rrfKey x))
    (((reciprocal_rank_fusion A B wa wb 60).map rrfKey).indexOf (rrfKey y))
    with h | h | h
  · exact h
  · exfalso
    have hge : ((reciprocal_rank_fusion A B wa wb 60).get ⟨_, h1'⟩) =
        ((reciprocal_rank_fusion A B wa wb 60).get ⟨_, h2'⟩) := by
      congr 1
      exact Fin.ext h
    rw [hge, hscorev] at hscoreu
    exact absurd hscoreu.symm (ne_of_gt hslt)
  · exfalso
    have hp := fused_pairwise A B wa wb 60
    have hle := (List.pairwise_iff_get.mp hp) ⟨_, h2'⟩ ⟨_, h1'⟩ (Fin.mk_lt_mk.mpr h)
    rw [hscoreu, hscorev] at hle
    exact absurd hle (not_le.mpr hslt)

/-- Fixture ranked result 1 (vector hit). -/
def c9a : RRFItem := ⟨"d", 1, "alpha".toList, 0.9⟩

/-- Fixture ranked result 2 (vector hit). -/
def c9b : RRFItem := ⟨"e", 2, "beta".toList, 0.8⟩

/-- Claim C9, witness: both input lists rank `c9a` first and `c9b`
second; the fused score of every key is the two-list contribution sum,
and the fused order keeps `c9a` before `c9b`. -/
theorem C9_reciprocal_rank_fusion_witness :
    (getScore (rrfMap [c9a, c9b] [c9a, c9b] 0.7 0.3 60) (rrfKey c9a) =
      rrfContrib 0.7 60 [c9a, c9b] 1 (rrfKey c9a) +
        rrfContrib 0.3 60 [c9a, c9b] 1 (rrfKey c9a)) ∧
    ((reciprocal_rank_fusion [c9a, c9b] [c9a, c9b] 0.7 0.3 60).map rrfKey).indexOf
        (rrfKey c9a) <
      ((reciprocal_rank_fusion [c9a, c9b] [c9a, c9b] 0.7 0.3 60).map rrfKey).indexOf
        (rrfKey c9b) :=
  ⟨C9_reciprocal_rank_fusion.1 [c9a, c9b] [c9a, c9b] 0.7 0.3 60 (rrfKey c9a),
    C9_reciprocal_rank_fusion.2 [c9a, c9b] [c9a, c9b] 0.7 0.3 (by norm_num)
      (by norm_num) (by decide) (by decide) 0 1 c9a c9b rfl rfl rfl rfl
      (by decide)⟩

end CBot
